import Mathlib

/-
Verification development for the Manim animation generator pipeline.

The definitions below are shallow embeddings of the Python source:
  - core/manim_client/safety.py      (static code validator over the AST)
  - core/manim_client/mcp_client.py  (execution backend: MCP transport, direct fallback)
  - mcp_servers/manim_server/main.py (render server: lock, normalization, render tool)
  - core/llm/openai_client.py        (scene-name extraction)
  - core/graph/nodes.py              (orchestrator nodes and retry decision)

Machine-external effects (filesystem, subprocess, transport) are modelled as
explicit parameters: a filesystem record, and event values describing how the
subprocess or transport call ended.
-/

namespace ManimGen

/-! ### Basic character/string utilities mirroring Python `str` operations -/

/-- The whitespace set used by Python `str.split()` / `str.strip()` / `\s`
(ASCII part; the unicode extras are irrelevant to the code under study). -/
def pySpaceB (c : Char) : Bool :=
  c == ' ' || c == '\t' || c == '\n' || c == '\r' || c == '\x0b' || c == '\x0c'

/-- Python `pat in s` substring test, over character lists. -/
def containsSub (pat : List Char) : List Char → Bool
  | [] => pat.isEmpty
  | c :: rest => pat.isPrefixOf (c :: rest) || containsSub pat rest

/-- Substring test on `String` (Python `pat in s`). -/
def containsSubS (pat s : String) : Bool :=
  containsSub pat.toList s.toList

/-- Python `s.split("\n")`: split at every newline, keeping empty segments. -/
def splitNL : List Char → List (List Char)
  | [] => [[]]
  | c :: rest =>
    if c == '\n' then [] :: splitNL rest
    else
      match splitNL rest with
      | l :: ls => (c :: l) :: ls
      | [] => [[c]]

/-- Helper for `splitWs`: accumulates the current word (reversed). -/
def splitWsAux : List Char → List Char → List (List Char)
  | [], cur => if cur.isEmpty then [] else [cur.reverse]
  | c :: rest, cur =>
    if pySpaceB c then
      if cur.isEmpty then splitWsAux rest [] else cur.reverse :: splitWsAux rest []
    else splitWsAux rest (c :: cur)

/-- Python `s.split()` with no argument: split on whitespace runs, no empties. -/
def splitWs (l : List Char) : List (List Char) := splitWsAux l []

/-- Python `s.strip()`. -/
def stripWs (l : List Char) : List Char :=
  ((l.dropWhile pySpaceB).reverse.dropWhile pySpaceB).reverse

/-- Python `s.split("(")[0]`: the part before the first opening parenthesis. -/
def beforeParen (l : List Char) : List Char := l.takeWhile (fun c => c != '(')

/-- Python `a or b` for an optional string (`None` and `""` are falsy). -/
def pyOrStr (o : Option String) (d : String) : String :=
  match o with
  | some s => if s == "" then d else s
  | none => d

/-- Fuel-driven Python `str.replace` on char lists (replace every
non-overlapping occurrence, left to right).  The fuel is an upper bound on the
input length; `replaceL` supplies `l.length`, which always suffices, so the
fuel-exhausted branch is unreachable. -/
def replaceLF (pat repl : List Char) : Nat → List Char → List Char
  | _, [] => []
  | 0, l => l
  | f + 1, c :: rest =>
    if pat ≠ [] ∧ pat.isPrefixOf (c :: rest) = true then
      repl ++ replaceLF pat repl f ((c :: rest).drop pat.length)
    else
      c :: replaceLF pat repl f rest

/-- Python `s.replace(pat, repl)` on char lists. -/
def replaceL (pat repl l : List Char) : List Char := replaceLF pat repl l.length l

/-! ### Safety validator (core/manim_client/safety.py)

The validator parses the code with `ast.parse` and walks every node of the
tree.  Parsing itself is external to this embedding, so the validator is
modelled over an abstract syntax tree (`PyNode`) covering the node shapes the
validator inspects, plus the container shapes needed to nest them; a parse
failure is modelled as an `Except.error` input carrying the message and line
number that `safety.py` formats. -/

/-- Python AST fragment: one unified node type for statements and expressions,
covering the shapes `validate_generated_manim_code` distinguishes. -/
inductive PyNode where
  | module (body : List PyNode)
  | imprt (names : List String)
  | importFrom (modName : Option String) (names : List String)
  | funcDef (fname : String) (body : List PyNode)
  | classDef (cname : String) (bases : List PyNode) (body : List PyNode)
  | exprStmt (e : PyNode)
  | assign (target : PyNode) (value : PyNode)
  | call (func : PyNode) (args : List PyNode)
  | attr (obj : PyNode) (field : String)
  | nameE (id : String)
  | constE

/-- `ast.iter_child_nodes`. -/
def children : PyNode → List PyNode
  | .module b => b
  | .imprt _ => []
  | .importFrom _ _ => []
  | .funcDef _ b => b
  | .classDef _ bs b => bs ++ b
  | .exprStmt e => [e]
  | .assign t v => [t, v]
  | .call f a => f :: a
  | .attr o _ => [o]
  | .nameE _ => []
  | .constE => []

mutual

def nodeSize : PyNode → Nat
  | .module b => 1 + nodesSize b
  | .imprt _ => 1
  | .importFrom _ _ => 1
  | .funcDef _ b => 1 + nodesSize b
  | .classDef _ bs b => 1 + nodesSize bs + nodesSize b
  | .exprStmt e => 1 + nodeSize e
  | .assign t v => 1 + nodeSize t + nodeSize v
  | .call f a => 1 + nodeSize f + nodesSize a
  | .attr o _ => 1 + nodeSize o
  | .nameE _ => 1
  | .constE => 1

def nodesSize : List PyNode → Nat
  | [] => 0
  | n :: ns => nodeSize n + nodesSize ns

end

/-- `_DANGEROUS_MODULES` from safety.py. -/
def DANGEROUS_MODULES : List String :=
  ["os", "sys", "subprocess", "shutil", "pathlib", "socket", "requests",
   "urllib", "http", "ftplib", "ctypes", "multiprocessing", "threading",
   "asyncio", "importlib", "builtins"]

/-- `_BLOCKED_CALL_NAMES` from safety.py. -/
def BLOCKED_CALL_NAMES : List String :=
  ["exec", "eval", "compile", "open", "__import__", "input", "breakpoint"]

/-- `_BLOCKED_CALL_ROOTS = _DANGEROUS_MODULES | getBuiltins`. -/
def BLOCKED_CALL_ROOTS : List String := DANGEROUS_MODULES ++ ["__builtins__"]

/-- Python `name.split(".")[0]`. -/
def rootModule (nm : String) : String :=
  String.mk (nm.toList.takeWhile (fun c => c != '.'))

/-- `_call_root_name`: unwrap attribute-access chains back to the base name. -/
def callRootName : PyNode → Option String
  | .attr o _ => callRootName o
  | .nameE id => some id
  | _ => none

/-- First alias of an `import` statement whose root module is denylisted
(the loop in safety.py raises at the first dangerous alias). -/
def firstDangerousRoot (names : List String) : Option String :=
  names.findSome? fun nm =>
    let r := rootModule nm
    if r ∈ DANGEROUS_MODULES then some r else none

/-- The per-node check of `validate_generated_manim_code`'s walk loop:
the message raised at this node, if any. -/
def checkNode : PyNode → Option String
  | .imprt names =>
    (firstDangerousRoot names).map
      (fun r => "Blocked import detected: '" ++ r ++ "'.")
  | .importFrom modName _ =>
    let r := rootModule (modName.getD "")
    if r ∈ DANGEROUS_MODULES then some ("Blocked import detected: '" ++ r ++ "'.") else none
  | .call f _ =>
    match f with
    | .nameE id =>
      if id ∈ BLOCKED_CALL_NAMES then
        some ("Blocked function call detected: '" ++ id ++ "()'.")
      else if id ∈ BLOCKED_CALL_ROOTS then
        some ("Blocked call root detected: '" ++ id ++ "'.")
      else none
    | f' =>
      match callRootName f' with
      | some r => if r ∈ BLOCKED_CALL_ROOTS then some ("Blocked call root detected: '" ++ r ++ "'.") else none
      | none => none
  | _ => none

/-- `ast.walk` is breadth-first: it pops a node from a queue, appends its
children to the queue, and yields the node.  The validator raises at the first
yielded node that violates a rule.  The fuel is an upper bound on the total
size of the queue; each step shrinks that total by exactly one, so
`firstViolation` below always supplies enough and the fuel-exhausted branch is
unreachable. -/
def firstViolationF : Nat → List PyNode → Option String
  | _, [] => none
  | 0, _ :: _ => none
  | f + 1, n :: q =>
    match checkNode n with
    | some msg => some msg
    | none => firstViolationF f (q ++ children n)

/-- Message of the first violating node in `ast.walk` (BFS) order, if any. -/
def firstViolation (q : List PyNode) : Option String :=
  firstViolationF (nodesSize q) q

/-- The list of all nodes in `ast.walk` (BFS) order, same recursion. -/
def walkListF : Nat → List PyNode → List PyNode
  | _, [] => []
  | 0, l => l
  | f + 1, n :: q => n :: walkListF f (q ++ children n)

def walkList (q : List PyNode) : List PyNode := walkListF (nodesSize q) q

/-- The first violating node itself in BFS order, same recursion. -/
def firstBadF : Nat → List PyNode → Option PyNode
  | _, [] => none
  | 0, _ :: _ => none
  | f + 1, n :: q =>
    if (checkNode n).isSome then some n else firstBadF f (q ++ children n)

def firstBad (q : List PyNode) : Option PyNode := firstBadF (nodesSize q) q

/-- A parse failure as `safety.py` sees it: `SyntaxError` message and line. -/
structure SynErr where
  msg : String
  lineno : Option Nat
deriving DecidableEq, Repr

/-- The `" line {exc.lineno}"` fragment (empty when `lineno` is falsy). -/
def synErrLine (e : SynErr) : String :=
  match e.lineno with
  | some n => if n == 0 then "" else " line " ++ toString n
  | none => ""

/-- `validate_generated_manim_code`, over the parse result of the code:
a parse failure becomes the syntax message; otherwise the tree is walked and
the first violation raises. -/
def validate_generated_manim_code (parsed : Except SynErr PyNode) : Except String Unit :=
  match parsed with
  | .error e =>
    .error ("Generated code is not valid Python (" ++ e.msg ++ synErrLine e ++ ").")
  | .ok m =>
    match firstViolation [m] with
    | some msg => .error msg
    | none => .ok ()

/-! ### Scene-name extraction

`OpenAILLMClient._extract_scene_name` (core/llm/openai_client.py) and
`MCPManimExecutor._extract_scene_name` (core/manim_client/mcp_client.py) run
the same scan; the LLM-side variant returns `None` when nothing matches, the
executor-side variant returns the literal `"Scene"`. -/

/-- Inner loop over `line.split()`: the first word equal to `"class"` that has
a successor word yields `parts[i+1].split("(")[0].strip()`. -/
def sceneFromParts : List (List Char) → Option (List Char)
  | [] => none
  | p :: rest =>
    if p = "class".toList ∧ rest ≠ [] then
      some (stripWs (beforeParen (rest.headD [])))
    else sceneFromParts rest

/-- One line of the scan: only lines containing both `"class"` and `"Scene"`
as substrings are inspected. -/
def sceneFromLine (line : List Char) : Option (List Char) :=
  sceneFromParts (splitWs line)

/-- Outer loop over `code.split("\n")`: a matching line that yields no word
after `"class"` does not stop the scan. -/
def sceneScanLines : List (List Char) → Option (List Char)
  | [] => none
  | l :: ls =>
    if containsSub "class".toList l && containsSub "Scene".toList l then
      match sceneFromLine l with
      | some n => some n
      | none => sceneScanLines ls
    else sceneScanLines ls

/-- `OpenAILLMClient._extract_scene_name`: `None` when no line yields. -/
def extract_scene_name_llm (code : String) : Option String :=
  (sceneScanLines (splitNL code.toList)).map String.mk

/-- `MCPManimExecutor._extract_scene_name`: the fixed default `"Scene"` when
no line yields. -/
def extract_scene_name_mcp (code : String) : String :=
  match sceneScanLines (splitNL code.toList) with
  | some n => String.mk n
  | none => "Scene"

/-! ### Resolution parsing

`_parse_resolution` appears twice with an identical body:
`MCPManimExecutor._parse_resolution` (mcp_client.py) and the module-level
`_parse_resolution` of the render server (main.py).  The regex
`\s*(\d{2,5})\s*[xX,]\s*(\d{2,5})\s*` is full-matched; `\s`, digit runs and
the separator are disjoint character classes, so the greedy full-match is
equivalent to the deterministic scan below (a digit run of length outside
2..5 can never match). -/

/-- The full-match of `\s*(\d{2,5})\s*[xX,]\s*(\d{2,5})\s*` against the
input, returning the two captured digit groups. -/
def resFullmatch (cs : List Char) : Option (List Char × List Char) :=
  let s1 := cs.dropWhile pySpaceB
  let d1 := s1.takeWhile Char.isDigit
  if 2 ≤ d1.length ∧ d1.length ≤ 5 then
    match (s1.drop d1.length).dropWhile pySpaceB with
    | sep :: s2 =>
      if sep == 'x' || sep == 'X' || sep == ',' then
        let s3 := s2.dropWhile pySpaceB
        let d2 := s3.takeWhile Char.isDigit
        if 2 ≤ d2.length ∧ d2.length ≤ 5 then
          if (s3.drop d2.length).dropWhile pySpaceB = [] then some (d1, d2) else none
        else none
      else none
    | [] => none
  else none

/-- Python `int` on a digit run. -/
def natOfDigits (ds : List Char) : Nat :=
  ds.foldl (fun acc c => acc * 10 + (c.toNat - '0'.toNat)) 0

/-- `_parse_resolution`: parse `WIDTHxHEIGHT` (or `WIDTH,HEIGHT`) into the
renderer `-r` argument `f"{width},{height}"`; `None` when the regex does not
match or a value is not positive. -/
def parse_resolution (value : String) : Option String :=
  match resFullmatch value.toList with
  | none => none
  | some (d1, d2) =>
    let width := natOfDigits d1
    let height := natOfDigits d2
    if width == 0 || height == 0 then none
    else some (toString width ++ "," ++ toString height)

/-! ### Filesystem model and artifact locator

`_find_video` (mcp_client.py) and the inline search of `render_manim_scene`
(main.py) query the filesystem: existence checks, `Path.resolve`, and
`rglob` results sorted by modification time (newest first).  These are
modelled as a record of functions; `FS.glob base pat` is the already sorted
match list of `sorted(base.rglob(pat), key=mtime, reverse=True)`. -/

structure FS where
  exists_file : String → Bool
  glob : String → String → List String
  resolve : String → String

/-- `rglob` only ever returns paths that exist on disk. -/
def GlobWF (fs : FS) : Prop :=
  ∀ base pat p, p ∈ fs.glob base pat → fs.exists_file p = true

/-- Largest `k` with `5 ≤ k ≤ run.length` such that `run.take k` ends in
`".mp4"`: the end of the greedy `[^\s]+\.mp4` match inside the maximal
non-whitespace run. -/
def bestMp4End (run : List Char) : Nat → Option Nat
  | 0 => none
  | k + 1 =>
    if 5 ≤ k + 1 ∧ ".mp4".toList.isSuffixOf (run.take (k + 1)) then some (k + 1)
    else bestMp4End run k

/-- Match `[/\\][^\s]+\.mp4` at the head of `cs`. -/
def matchSlashMp4 (cs : List Char) : Option (List Char) :=
  match cs with
  | c :: rest =>
    if c == '/' || c == '\\' then
      let run := rest.takeWhile (fun x => !pySpaceB x)
      match bestMp4End run run.length with
      | some k => some (c :: run.take k)
      | none => none
    else none
  | [] => none

/-- Match `([A-Za-z]:)?[/\\][^\s]+\.mp4` at the head of `cs` (the optional
drive-letter group is tried first, as the regex engine does). -/
def matchMp4At (cs : List Char) : Option (List Char) :=
  match cs with
  | a :: b :: rest =>
    if a.isAlpha ∧ b == ':' then
      match matchSlashMp4 rest with
      | some m => some (a :: b :: m)
      | none => matchSlashMp4 cs
    else matchSlashMp4 cs
  | _ => matchSlashMp4 cs

/-- `re.search(r"([A-Za-z]:)?[/\\][^\s]+\.mp4", line)`: leftmost match. -/
def reSearchMp4 : List Char → Option (List Char)
  | [] => none
  | c :: rest =>
    match matchMp4At (c :: rest) with
    | some m => some m
    | none => reSearchMp4 rest

/-- Method 1 of the video search, shared by client and server: scan the
combined output line by line; on a line containing `".mp4"`, regex-extract a
path, normalize backslashes, and accept it only if it exists on disk. -/
def scanOutputLines (fs : FS) : List (List Char) → Option String
  | [] => none
  | l :: ls =>
    if containsSub ".mp4".toList l then
      match reSearchMp4 l with
      | some m =>
        let cand := String.mk (m.map (fun c => if c == '\\' then '/' else c))
        if fs.exists_file cand then some (fs.resolve cand) else scanOutputLines fs ls
      | none => scanOutputLines fs ls
    else scanOutputLines fs ls

/-- Methods 2/3: walk the search bases; in an existing base, return the most
recently modified `rglob` match, else move to the next base. -/
def searchBases (fs : FS) (pat : String) : List String → Option String
  | [] => none
  | b :: bs =>
    if fs.exists_file b then
      match fs.glob b pat with
      | p :: _ => some (fs.resolve p)
      | [] => searchBases fs pat bs
    else searchBases fs pat bs

/-- `MCPManimExecutor._find_video`: output scan first, then the exact
`{scene_name}.mp4` search over the three bases, then any `*.mp4`.
(Path joins are written with `/`; the platform separator is immaterial to the
properties proved here.) -/
def find_video (fs : FS) (stdout stderr scene_name run_dir output_dir : String) :
    Option String :=
  let combined := stdout ++ "\n" ++ stderr
  match scanOutputLines fs (splitNL combined.toList) with
  | some p => some p
  | none =>
    let bases := [run_dir ++ "/media/videos/scene_script",
                  run_dir ++ "/media/videos",
                  output_dir ++ "/media/videos"]
    match searchBases fs (scene_name ++ ".mp4") bases with
    | some p => some p
    | none => searchBases fs "*.mp4" bases

/-- The inline video search of `render_manim_scene` (main.py): same methods,
but only two search bases (the run directory ones). -/
def server_find_video (fs : FS) (stdout stderr scene_name run_dir : String) :
    Option String :=
  let combined := stdout ++ "\n" ++ stderr
  match scanOutputLines fs (splitNL combined.toList) with
  | some p => some p
  | none =>
    let bases := [run_dir ++ "/media/videos/scene_script",
                  run_dir ++ "/media/videos"]
    match searchBases fs (scene_name ++ ".mp4") bases with
    | some p => some p
    | none => searchBases fs "*.mp4" bases

/-! ### Result models (core/models.py and main.py) -/

/-- `ManimExecutionResult` (core/models.py). -/
structure ManimExecutionResult where
  success : Bool
  video_path : Option String
  stderr : Option String
  stdout : Option String
deriving DecidableEq, Repr

/-- `RenderResult` (mcp_servers/manim_server/main.py). -/
structure RenderResult where
  success : Bool
  video_path : Option String
  stderr : Option String
  stdout : Option String
deriving DecidableEq, Repr

/-! ### Render server (mcp_servers/manim_server/main.py) -/

/-- First stage of `_normalize_code_input`:
`code.replace("\r\n", "\n").replace("\r", "\n")`. -/
def crNormL (code : List Char) : List Char :=
  replaceL "\r".toList "\n".toList (replaceL "\r\n".toList "\n".toList code)

/-- Second stage of `_normalize_code_input`:
`.replace("\\r\\n", "\n").replace("\\n", "\n").replace("\\t", "\t")`. -/
def escReplL (code : List Char) : List Char :=
  replaceL "\\t".toList "\t".toList
    (replaceL "\\n".toList "\n".toList
      (replaceL "\\r\\n".toList "\n".toList code))

/-- `_normalize_code_input`: normalize CR line endings; when the text has a
literal backslash-n but no real newline, decode the escape sequences. -/
def normalizeL (code : List Char) : List Char :=
  let normalized := crNormL code
  if containsSub "\\n".toList normalized && !containsSub "\n".toList normalized then
    escReplL normalized
  else normalized

/-- `_normalize_code_input` on `String` (the `code or ""` guard for a `None`
input is outside this embedding: the argument is already a string). -/
def normalize_code_input (code : String) : String := String.mk (normalizeL code.toList)

/-- How the render attempt inside `render_manim_scene` ended, once the lock is
held and validation passed.  `innerFailed` is the inner `except Exception`
handler (it can fire before the subprocess starts, e.g. in the scene-name
scan, hence the explicit flag); `outerFailed` is the outer handler, reached
before the inner `try` (directory setup / script write). -/
inductive ServerEvent where
  | completed (rc : Int) (stdout stderr : String)
  | timedOut
  | innerFailed (msg : String) (spawnedBefore : Bool)
  | outerFailed (msg : String)

/-- One `render_manim_scene` call from the outside: resulting lock state,
whether a render subprocess was started, and the returned `RenderResult`. -/
structure ServerStep where
  lockAfter : Bool
  spawned : Bool
  result : RenderResult
deriving DecidableEq, Repr

/-- Lock-contention message of `render_manim_scene`. -/
def contentionMsg : String :=
  "Another render is already running in this server instance. Wait and retry."

/-- The hint appended to a first-line syntax error when the code has no real
newline (Inspector form input). -/
def inspectorHint : String :=
  " Hint: if using MCP Inspector form, paste escaped newlines (\\n) in code, or switch to raw JSON args mode."

/-- The `RenderResult` computed after the subprocess completed: the video is
searched only on a zero exit code, and success additionally requires a found
video. -/
def server_completed_result (fs : FS) (rc : Int) (stdout stderr scene_name run_dir : String) :
    RenderResult :=
  let video_path := if rc == 0 then server_find_video fs stdout stderr scene_name run_dir else none
  { success := rc == 0 && video_path.isSome
    video_path := video_path
    stderr := if rc == 0 then none else some stderr
    stdout := some stdout }

/-- `render_manim_scene`: non-blocking lock acquire (fail fast on contention),
normalization + validation before any subprocess, and an unconditional
release (`finally`) on every exit path of an acquired lock.
`codeText` is the normalized code `_normalize_code_input(request.code)` and
`parsed` its parse result; `scene_name` is the resolved scene identifier. -/
def render_manim_scene (lockHeld : Bool) (fs : FS) (codeText : String)
    (parsed : Except SynErr PyNode) (scene_name run_dir : String)
    (ev : ServerEvent) : ServerStep :=
  if lockHeld then
    ⟨true, false, ⟨false, none, some contentionMsg, none⟩⟩
  else
    match validate_generated_manim_code parsed with
    | .error msg =>
      let msg' :=
        if containsSubS "invalid syntax line 1" msg && !containsSubS "\n" codeText then
          msg ++ inspectorHint
        else msg
      ⟨false, false, ⟨false, none, some msg', none⟩⟩
    | .ok _ =>
      match ev with
      | .completed rc out err =>
        ⟨false, true, server_completed_result fs rc out err scene_name run_dir⟩
      | .timedOut =>
        ⟨false, true, ⟨false, none, some "Manim execution timed out after 5 minutes", none⟩⟩
      | .innerFailed m sp =>
        ⟨false, sp, ⟨false, none, some ("Error executing Manim subprocess: " ++ m), none⟩⟩
      | .outerFailed m =>
        ⟨false, false, ⟨false, none, some ("Error executing Manim: " ++ m), none⟩⟩

/-! ### Execution backend client (core/manim_client/mcp_client.py) -/

/-- `_extract_text_content`: keep the stripped text of each non-blank text
block, joined with newlines; `None` when nothing remains.  (Blocks without a
string `text` attribute never reach the list.) -/
def extract_text_content (blocks : List String) : Option String :=
  let parts := blocks.filterMap fun t =>
    let s := stripWs t.toList
    if s.isEmpty then none else some (String.mk s)
  if parts.isEmpty then none else some (String.intercalate "\n" parts)

/-- A FastMCP `CallToolResult` as `_parse_mcp_tool_result` consumes it:
the error flag, the text content blocks, and the structured payload that
`_extract_structured_payload` recovers (already in `RenderResult` shape,
since the in-process server returns a `RenderResult` model). -/
structure ToolResult where
  is_error : Bool
  content : List String
  payload : Option RenderResult

/-- `_parse_mcp_tool_result`: an explicit tool error or a missing payload is a
failed outcome; otherwise the payload is converted field by field, the video
path being re-resolved when it still exists. -/
def parse_mcp_tool_result (fs : FS) (tr : ToolResult) : ManimExecutionResult :=
  if tr.is_error then
    ⟨false, none, some (pyOrStr (extract_text_content tr.content) "MCP tool reported an error."), none⟩
  else
    match tr.payload with
    | none =>
      ⟨false, none, some (pyOrStr (extract_text_content tr.content) "MCP tool returned no structured payload."), none⟩
    | some p =>
      let video_path :=
        match p.video_path with
        | some s => if s != "" && fs.exists_file s then some (fs.resolve s) else some s
        | none => none
      ⟨p.success, video_path, p.stderr, p.stdout⟩

/-- How the direct-subprocess fallback attempt ended.  `raisedErr` is the
generic `except Exception` handler of `_execute_direct`; it can fire before
the subprocess starts (directory setup, script write). -/
inductive DirectEvent where
  | completed (rc : Int) (stdout stderr : String)
  | timedOut
  | raisedErr (msg : String)

/-- `_execute_direct` from the subprocess call onwards: find the video in the
captured output / run directory, and succeed only on a zero exit code with a
found video; a timeout or exception is converted to a failed outcome. -/
def execute_direct (fs : FS) (ev : DirectEvent)
    (scene_name run_dir output_dir : String) (timeoutSecs : Nat) :
    ManimExecutionResult :=
  match ev with
  | .completed rc out err =>
    let video_path := find_video fs out err scene_name run_dir output_dir
    { success := rc == 0 && video_path.isSome
      video_path := video_path
      stderr := if rc == 0 then none else some err
      stdout := some out }
  | .timedOut =>
    ⟨false, none,
      some ("Manim execution timed out after " ++ toString timeoutSecs ++ " seconds"), none⟩
  | .raisedErr msg =>
    ⟨false, none, some ("Manim execution error: " ++ msg), none⟩

/-- How the MCP transport call (`_execute_via_mcp`) ended: an exception of
any kind, or a `CallToolResult` handed to `_parse_mcp_tool_result`. -/
inductive MCPEvent where
  | raised (msg : String)
  | returned (tr : ToolResult)

/-- One `MCPManimExecutor.execute` call from the outside. -/
structure ClientStep where
  result : ManimExecutionResult
  usedFallback : Bool
  spawnedDirect : Bool

/-- Python `code.scene_name or self._extract_scene_name(code.code)`. -/
def resolved_scene_name (scene_name_field : Option String) (code : String) : String :=
  pyOrStr scene_name_field (extract_scene_name_mcp code)

/-- `MCPManimExecutor.execute`: validate first and return the rejection as a
failed outcome; then try the MCP transport, falling back to the direct
subprocess on any exception; every path produces a `ManimExecutionResult`
(the function is total — no exception crosses this boundary). -/
def execute (fs : FS) (parsed : Except SynErr PyNode)
    (scene_name_field : Option String) (code : String)
    (mev : MCPEvent) (dev : DirectEvent)
    (run_dir output_dir : String) (timeoutSecs : Nat) : ClientStep :=
  match validate_generated_manim_code parsed with
  | .error msg => ⟨⟨false, none, some msg, none⟩, false, false⟩
  | .ok _ =>
    match mev with
    | .returned tr => ⟨parse_mcp_tool_result fs tr, false, false⟩
    | .raised _ =>
      ⟨execute_direct fs dev (resolved_scene_name scene_name_field code) run_dir output_dir timeoutSecs,
        true,
        match dev with
        | .completed _ _ _ => true
        | .timedOut => true
        | .raisedErr _ => false⟩

/-! ### Pipeline orchestrator (core/graph/nodes.py, builder.py)

The LangGraph workflow runs `run_manim` and, depending on `should_retry`,
either ends or runs `fix_code` and loops back.  The generation and repair
steps call the language model; here an attempt's outcome is an external
input: `outcomes k` is the `ManimExecutionResult` of the execution attempt
made with `retries = k` (retries increments exactly once between attempts). -/

/-- The slice of `GraphState` the retry loop reads and writes. -/
structure GState where
  execution : Option ManimExecutionResult
  error_message : Option String
  retries : Nat
deriving DecidableEq, Repr

/-- Python truthiness of `execution and execution.success`. -/
def execSuccess (execution : Option ManimExecutionResult) : Bool :=
  match execution with
  | some e => e.success
  | none => false

/-- `run_manim_node`: store the attempt's outcome; on failure store
`stderr or "Unknown error occurred"` as the error message.  (`retries` is
initialized to 0 when absent; the model keeps it always present.) -/
def run_manim_node (outcomes : Nat → ManimExecutionResult) (s : GState) : GState :=
  let ex := outcomes s.retries
  { s with
    execution := some ex
    error_message := if ex.success then s.error_message else some (pyOrStr ex.stderr "Unknown error occurred") }

/-- `fix_manim_code_node`: replace the code (outside this slice), increment
`retries`, clear the error message. -/
def fix_manim_code_node (s : GState) : GState :=
  { s with retries := s.retries + 1, error_message := some "" }

/-- `should_retry`: the conditional-edge decision, pure in
`(execution, retries, ceiling)`. -/
def should_retry (execution : Option ManimExecutionResult) (retries ceiling : Nat) : String :=
  if execSuccess execution then "end"
  else if retries < ceiling then "fix"
  else "end"

/-- Terminal condition of a finished run. -/
inductive Terminal where
  | succeeded
  | failed
deriving DecidableEq, Repr

/-- Everything observable about one run of the retry loop. -/
structure RunSummary where
  terminal : Terminal
  final : GState
  execCount : Nat
  fixCount : Nat
  trace : List Nat
deriving DecidableEq, Repr

/-- The summary of a loop iteration on which `should_retry` answered
`"end"`: the graph reaches `END` with the state of the last execution. -/
def orchEnd (s1 : GState) : RunSummary :=
  ⟨if execSuccess s1.execution then .succeeded else .failed, s1, 1, 0, [s1.retries]⟩

/-- The `run_manim → should_retry → (END | fix_code → run_manim)` loop.
The fuel bounds the number of `fix_code` transitions; `should_retry` only
answers `"fix"` while `retries < ceiling`, so `orchestrate`'s fuel of
`ceiling` always suffices: with zero fuel left, `retries` has necessarily
reached the ceiling and the iteration is an `"end"` one.
`trace` records the `retries` value at each execution attempt. -/
def orchLoop (outcomes : Nat → ManimExecutionResult) (ceiling : Nat) :
    Nat → GState → RunSummary
  | 0, s => orchEnd (run_manim_node outcomes s)
  | f + 1, s =>
    let s1 := run_manim_node outcomes s
    if should_retry s1.execution s1.retries ceiling = "fix" then
      let rest := orchLoop outcomes ceiling f (fix_manim_code_node s1)
      ⟨rest.terminal, rest.final, rest.execCount + 1, rest.fixCount + 1, s1.retries :: rest.trace⟩
    else orchEnd s1

/-- A full pipeline run from the initial state (`retries = 0`). -/
def orchestrate (outcomes : Nat → ManimExecutionResult) (ceiling : Nat) : RunSummary :=
  orchLoop outcomes ceiling ceiling ⟨none, none, 0⟩

/-- The node is an `import`/`from-import` statement whose root module (the
part before the first dot) is `mod`: the shape the validator's import rules
look for. -/
def isImportOf (mod : String) : PyNode → Bool
  | .imprt ns => ns.any (fun nm => rootModule nm == mod)
  | .importFrom mn _ => rootModule (mn.getD "") == mod
  | _ => false

/-- The node is a call whose callee is the bare name `f`. -/
def isBareCallOf (f : String) : PyNode → Bool
  | .call g _ =>
    match g with
    | .nameE id => id == f
    | _ => false
  | _ => false

/-- distinguished counterexample tree for C5: an `eval` call precedes the
blocked import in `ast.walk` (BFS) order. -/
def c5ex : PyNode :=
  .module [.exprStmt (.call (.nameE "eval") []), .funcDef "f" [.imprt ["os"]]]

/-- distinguished counterexample tree for C8: a blocked import precedes the
`eval` call in `ast.walk` (BFS) order. -/
def c8ex : PyNode :=
  .module [.imprt ["os"], .exprStmt (.call (.nameE "eval") [])]

/-! ## Theorems -/

/-! ### Evaluation checks of the embedded definitions -/

example :
    validate_generated_manim_code (.ok (.module [.imprt ["os"]])) =
      .error "Blocked import detected: 'os'." := rfl

example :
    validate_generated_manim_code
      (.ok (.module [.exprStmt (.call (.nameE "eval") [.constE])])) =
      .error "Blocked function call detected: 'eval()'." := rfl

example :
    validate_generated_manim_code
      (.ok (.module [.exprStmt (.call (.attr (.attr (.nameE "os") "path") "join") [])])) =
      .error "Blocked call root detected: 'os'." := rfl

example :
    validate_generated_manim_code
      (.ok (.module [.importFrom (some "manim") ["Scene"],
                     .classDef "MyScene" [.nameE "Scene"] [.funcDef "construct" []]])) =
      .ok () := rfl

example : extract_scene_name_llm "from manim import *\nclass MyScene(Scene):\n    pass" =
    some "MyScene" := rfl

example : extract_scene_name_mcp "print(1)" = "Scene" := rfl

example : parse_resolution "1920x1080" = some "1920,1080" := rfl

example : parse_resolution "0x0" = none := rfl

example : parse_resolution "abcx100" = none := rfl

example : parse_resolution " 1280 , 720 " = some "1280,720" := rfl

example : reSearchMp4 "Ready at /tmp/x/Scene.mp4 now".toList =
    some "/tmp/x/Scene.mp4".toList := rfl

example : reSearchMp4 "C:\\media\\Scene.mp4".toList =
    some "C:\\media\\Scene.mp4".toList := rfl

example : normalize_code_input "a\r\nb\rc" = "a\nb\nc" := rfl

example : normalize_code_input "l1\\nl2\\tx" = "l1\nl2\tx" := rfl

example : normalize_code_input "has\nnewline\\n" = "has\nnewline\\n" := rfl

example :
    (orchestrate (fun _ => ⟨false, none, some "boom", none⟩) 3).terminal = .failed := rfl

example :
    (orchestrate (fun _ => ⟨false, none, some "boom", none⟩) 3).trace = [0, 1, 2, 3] := rfl

example :
    (orchestrate (fun k => if k == 2 then ⟨true, some "/v.mp4", none, none⟩
                           else ⟨false, none, some "boom", none⟩) 5).execCount = 3 := rfl


/-- **C2.** If the render lock is already held when a second render call
arrives, that call returns immediately a failed outcome carrying the
contention message, without spawning a render process (and without touching
the lock, which stays with its holder); and whenever the lock was free on
entry, it is free again on exit on every path — validation failure, normal
completion, timeout, inner or outer exception — so a subsequent call can
acquire it. -/
theorem C2_render_lock_contention_and_release
    (fs : FS) (codeText : String) (parsed : Except SynErr PyNode)
    (scene run_dir : String) (ev : ServerEvent) :
    (render_manim_scene true fs codeText parsed scene run_dir ev).result.success = false ∧
    (render_manim_scene true fs codeText parsed scene run_dir ev).result.stderr =
      some contentionMsg ∧
    (render_manim_scene true fs codeText parsed scene run_dir ev).spawned = false ∧
    (render_manim_scene true fs codeText parsed scene run_dir ev).lockAfter = true ∧
    (render_manim_scene false fs codeText parsed scene run_dir ev).lockAfter = false := by
  refine ⟨rfl, rfl, rfl, rfl, ?_⟩
  unfold render_manim_scene
  cases h : validate_generated_manim_code parsed with
  | error msg => simp
  | ok u => cases ev <;> simp

/-- **C4.** `execute` is a total function into `ManimExecutionResult` — in the
embedding no exception value crosses its boundary — and each terminal error
class becomes a failed outcome: a validator rejection returns the rejection
text without touching the transport or the subprocess; a wall-clock timeout of
the fallback subprocess yields `success = false` with the explanatory timeout
text; a subprocess exception yields `success = false` with the error text; an
explicit tool error or a missing structured payload on the transport path
yields `success = false`. -/
theorem C4_execute_total_outcomes
    (fs : FS) (parsed : Except SynErr PyNode) (csn : Option String)
    (code : String) (mev : MCPEvent) (dev : DirectEvent)
    (run_dir output_dir : String) (t : Nat) (m e : String)
    (ct : List String) (pl : Option RenderResult) :
    (∀ msg, validate_generated_manim_code parsed = .error msg →
      execute fs parsed csn code mev dev run_dir output_dir t =
        ⟨⟨false, none, some msg, none⟩, false, false⟩) ∧
    (validate_generated_manim_code parsed = .ok () →
      (execute fs parsed csn code (.raised m) .timedOut run_dir output_dir t).result =
        ⟨false, none,
          some ("Manim execution timed out after " ++ toString t ++ " seconds"), none⟩ ∧
      (execute fs parsed csn code (.raised m) (.raisedErr e) run_dir output_dir t).result =
        ⟨false, none, some ("Manim execution error: " ++ e), none⟩ ∧
      (execute fs parsed csn code (.returned ⟨true, ct, pl⟩) dev run_dir output_dir t).result.success
        = false ∧
      (execute fs parsed csn code (.returned ⟨false, ct, none⟩) dev run_dir output_dir t).result.success
        = false) := by
  constructor
  · intro msg h
    simp [execute, h]
  · intro h
    refine ⟨?_, ?_, ?_, ?_⟩ <;> simp [execute, h, execute_direct, parse_mcp_tool_result]

/-- Witness for C4 at concrete inputs: a first-line syntax rejection and a
timeout of the fallback path. -/
theorem C4_execute_total_outcomes_witness :
    (execute ⟨fun _ => false, fun _ _ => [], fun s => s⟩
        (.error ⟨"invalid syntax", some 1⟩) none "pass" (.raised "conn reset") .timedOut
        "/run" "/out" 300 =
      ⟨⟨false, none, some "Generated code is not valid Python (invalid syntax line 1).", none⟩,
        false, false⟩) ∧
    ((execute ⟨fun _ => false, fun _ _ => [], fun s => s⟩
        (.ok (.module [])) none "pass" (.raised "conn reset") .timedOut
        "/run" "/out" 300).result =
      ⟨false, none, some ("Manim execution timed out after " ++ toString 300 ++ " seconds"), none⟩) := by
  constructor
  · exact (C4_execute_total_outcomes _ _ none "pass" _ _ "/run" "/out" 300 "conn reset" ""
      [] none).1 _ rfl
  · exact ((C4_execute_total_outcomes ⟨fun _ => false, fun _ _ => [], fun s => s⟩
      (.ok (.module [])) none "pass" (.raised "conn reset") .timedOut
      "/run" "/out" 300 "conn reset" "" [] none).2 rfl).1

/-- **C6.** With validation passed: when the transport call raises (any
exception), `execute` falls back to the direct subprocess path — its outcome
equals the direct-path outcome, so the transport failure itself never becomes
the pipeline outcome; when the tool explicitly reports an error
(`is_error = true` in its structured response), `execute` returns that as a
failed outcome and the fallback path is not used. -/
theorem C6_transport_fallback_vs_application_error
    (fs : FS) (parsed : Except SynErr PyNode) (csn : Option String)
    (code : String) (dev : DirectEvent) (run_dir output_dir : String)
    (t : Nat) (m : String) (ct : List String) (pl : Option RenderResult)
    (h : validate_generated_manim_code parsed = .ok ()) :
    (execute fs parsed csn code (.raised m) dev run_dir output_dir t).result =
      execute_direct fs dev (resolved_scene_name csn code) run_dir output_dir t ∧
    (execute fs parsed csn code (.raised m) dev run_dir output_dir t).usedFallback = true ∧
    (execute fs parsed csn code (.returned ⟨true, ct, pl⟩) dev run_dir output_dir t).result =
      ⟨false, none, some (pyOrStr (extract_text_content ct) "MCP tool reported an error."), none⟩ ∧
    (execute fs parsed csn code (.returned ⟨true, ct, pl⟩) dev run_dir output_dir t).usedFallback
      = false := by
  refine ⟨?_, ?_, ?_, ?_⟩ <;> simp [execute, h, parse_mcp_tool_result]

/-- Witness for C6 at concrete inputs: a transport exception with a completed
fallback, and an explicit tool error. -/
theorem C6_transport_fallback_vs_application_error_witness :
    ((execute ⟨fun _ => false, fun _ _ => [], fun s => s⟩ (.ok (.module [])) (some "MyScene")
        "pass" (.raised "broken pipe") (.completed 1 "out" "err") "/run" "/out" 300).result =
      execute_direct ⟨fun _ => false, fun _ _ => [], fun s => s⟩ (.completed 1 "out" "err")
        (resolved_scene_name (some "MyScene") "pass") "/run" "/out" 300) ∧
    ((execute ⟨fun _ => false, fun _ _ => [], fun s => s⟩ (.ok (.module [])) (some "MyScene")
        "pass" (.returned ⟨true, ["tool failed"], none⟩) (.completed 1 "out" "err")
        "/run" "/out" 300).result =
      ⟨false, none, some (pyOrStr (extract_text_content ["tool failed"])
        "MCP tool reported an error."), none⟩) := by
  have h := C6_transport_fallback_vs_application_error
    ⟨fun _ => false, fun _ _ => [], fun s => s⟩ (.ok (.module [])) (some "MyScene")
    "pass" (.completed 1 "out" "err") "/run" "/out" 300 "broken pipe" ["tool failed"] none rfl
  exact ⟨h.1, h.2.2.1⟩

/-- A yielded scan result comes from a line of the source that contains both
`"class"` and `"Scene"` as substrings. -/
theorem sceneScanLines_sound (ls : List (List Char)) (nl : List Char)
    (h : sceneScanLines ls = some nl) :
    ∃ l ∈ ls, (containsSub "class".toList l && containsSub "Scene".toList l) = true ∧
      sceneFromLine l = some nl := by
  induction ls with
  | nil => simp [sceneScanLines] at h
  | cons l ls ih =>
    by_cases hc : (containsSub "class".toList l && containsSub "Scene".toList l) = true
    · rw [sceneScanLines, if_pos hc] at h
      cases hl : sceneFromLine l with
      | some n =>
        rw [hl] at h
        exact ⟨l, List.mem_cons_self _ _, hc, hl.trans h⟩
      | none =>
        rw [hl] at h
        obtain ⟨l', hmem, hder⟩ := ih h
        exact ⟨l', List.mem_cons_of_mem _ hmem, hder⟩
    · rw [sceneScanLines, if_neg hc] at h
      obtain ⟨l', hmem, hder⟩ := ih h
      exact ⟨l', List.mem_cons_of_mem _ hmem, hder⟩

/-- **C7 (counterexample).** The claim says extraction returns the name of the
first class declaration whose *name* contains the token `"Scene"` and a null
identifier otherwise.  On `class Foo(Scene):` the code returns `"Foo"` — a
name that does not contain `"Scene"` (the scan matches any line containing
both `"class"` and `"Scene"` anywhere, here via the base class) — instead of
the null identifier / default the claim predicts. -/
theorem C7_counterexample_base_class_match :
    extract_scene_name_llm "class Foo(Scene):\n    pass" = some "Foo" ∧
    extract_scene_name_mcp "class Foo(Scene):\n    pass" = "Foo" ∧
    containsSubS "Scene" "Foo" = false :=
  ⟨rfl, rfl, rfl⟩

/-- **C7 (amended).** Scene-identifier extraction scans the source lines for
the first line containing both `"class"` and the marker `"Scene"` anywhere in
the line and yielding a word right after a literal word `"class"`; it returns
that word with a trailing base-class parenthetical stripped.  If no line
yields, the LLM-side extractor returns a null identifier and the backend-side
extractor returns the fixed default `"Scene"`; the two extractors agree
otherwise. -/
theorem C7_scene_extraction_amended (code : String) :
    extract_scene_name_mcp code = (extract_scene_name_llm code).getD "Scene" ∧
    (∀ n, extract_scene_name_llm code = some n →
      ∃ l ∈ splitNL code.toList,
        (containsSub "class".toList l && containsSub "Scene".toList l) = true ∧
        sceneFromLine l = some n.toList) ∧
    (extract_scene_name_llm code = none → extract_scene_name_mcp code = "Scene") := by
  refine ⟨?_, ?_, ?_⟩
  · unfold extract_scene_name_mcp extract_scene_name_llm
    cases sceneScanLines (splitNL code.toList) <;> rfl
  · intro n hn
    unfold extract_scene_name_llm at hn
    cases h : sceneScanLines (splitNL code.toList) with
    | none => rw [h] at hn; simp at hn
    | some nl =>
      rw [h] at hn
      simp only [Option.map_some'] at hn
      obtain rfl := Option.some.inj hn
      obtain ⟨l, hmem, hc, hder⟩ := sceneScanLines_sound _ _ h
      exact ⟨l, hmem, hc, hder⟩
  · intro hn
    unfold extract_scene_name_llm at hn
    unfold extract_scene_name_mcp
    cases h : sceneScanLines (splitNL code.toList) with
    | none => rfl
    | some nl => rw [h] at hn; simp at hn

/-- Witness for C7 at a concrete input: on `class MyScene(Scene):` the
extraction yields `"MyScene"`, coming from a line containing both tokens. -/
theorem C7_scene_extraction_amended_witness :
    ∃ l ∈ splitNL ("from manim import *\nclass MyScene(Scene):" : String).toList,
      (containsSub "class".toList l && containsSub "Scene".toList l) = true ∧
      sceneFromLine l = some ("MyScene" : String).toList :=
  (C7_scene_extraction_amended "from manim import *\nclass MyScene(Scene):").2.1 "MyScene" rfl

/-- A digit character is not in the `\s` class. -/
theorem isDigit_not_pySpace {c : Char} (h : c.isDigit = true) : pySpaceB c = false := by
  by_contra hs
  rw [Bool.not_eq_false] at hs
  simp only [pySpaceB, Bool.or_eq_true, beq_iff_eq] at hs
  rcases hs with ((((hs | hs) | hs) | hs) | hs) | hs <;> subst hs <;>
    exact absurd h (by decide)

/-- `takeWhile` keeps a list all of whose elements satisfy the test. -/
theorem takeWhile_eq_self_of_all {p : Char → Bool} :
    ∀ l : List Char, (∀ c ∈ l, p c = true) → l.takeWhile p = l
  | [], _ => rfl
  | c :: l, h => by
    rw [List.takeWhile_cons, if_pos (h c (List.mem_cons_self _ _)),
      takeWhile_eq_self_of_all l (fun x hx => h x (List.mem_cons_of_mem _ hx))]

/-- `takeWhile` cut exactly at a failing sentinel after an all-passing run. -/
theorem takeWhile_append_sentinel {p : Char → Bool} {x : Char} (r : List Char)
    (hx : p x = false) :
    ∀ l : List Char, (∀ c ∈ l, p c = true) → (l ++ x :: r).takeWhile p = l
  | [], _ => by simp [List.takeWhile_cons, hx]
  | c :: l, h => by
    rw [List.cons_append, List.takeWhile_cons, if_pos (h c (List.mem_cons_self _ _)),
      takeWhile_append_sentinel r hx l (fun y hy => h y (List.mem_cons_of_mem _ hy))]

/-- Inversion of the resolution regex full-match: the captured groups are
digit runs of two to five characters. -/
theorem resFullmatch_sound (cs d1 d2 : List Char)
    (h : resFullmatch cs = some (d1, d2)) :
    2 ≤ d1.length ∧ d1.length ≤ 5 ∧ 2 ≤ d2.length ∧ d2.length ≤ 5 ∧
    (∀ c ∈ d1, c.isDigit = true) ∧ (∀ c ∈ d2, c.isDigit = true) := by
  simp only [resFullmatch] at h
  split_ifs at h with h1
  split at h
  next sep s2 =>
    split_ifs at h with hsep h2 hend
    have hp := Option.some.inj h
    rw [Prod.mk.injEq] at hp
    obtain ⟨rfl, rfl⟩ := hp
    exact ⟨h1.1, h1.2, h2.1, h2.2,
      fun c hc => List.mem_takeWhile_imp hc,
      fun c hc => List.mem_takeWhile_imp hc⟩
  next => exact absurd h (by simp)

/-- The resolution regex accepts a `digits ++ 'x' ++ digits` string whenever
both runs have two to five characters. -/
theorem resFullmatch_complete (d1 d2 : List Char)
    (h1 : ∀ c ∈ d1, c.isDigit = true) (h2 : ∀ c ∈ d2, c.isDigit = true)
    (l1 : 2 ≤ d1.length) (l1' : d1.length ≤ 5)
    (l2 : 2 ≤ d2.length) (l2' : d2.length ≤ 5) :
    resFullmatch (d1 ++ 'x' :: d2) = some (d1, d2) := by
  obtain ⟨a, d1', rfl⟩ : ∃ a d1', d1 = a :: d1' := by
    cases d1 with
    | nil => simp at l1
    | cons a d1' => exact ⟨a, d1', rfl⟩
  obtain ⟨b, d2', rfl⟩ : ∃ b d2', d2 = b :: d2' := by
    cases d2 with
    | nil => simp at l2
    | cons b d2' => exact ⟨b, d2', rfl⟩
  have ha : pySpaceB a = false := isDigit_not_pySpace (h1 a (List.mem_cons_self _ _))
  have hb : pySpaceB b = false := isDigit_not_pySpace (h2 b (List.mem_cons_self _ _))
  have e1 : ((a :: d1') ++ 'x' :: b :: d2').dropWhile pySpaceB = (a :: d1') ++ 'x' :: b :: d2' := by
    rw [List.cons_append, List.dropWhile_cons, if_neg (by simp [ha])]
  have e2 : ((a :: d1') ++ 'x' :: b :: d2').takeWhile Char.isDigit = a :: d1' :=
    takeWhile_append_sentinel _ (by decide) _ h1
  have e3 : ((a :: d1') ++ 'x' :: b :: d2').drop (a :: d1').length = 'x' :: b :: d2' :=
    List.drop_left _ _
  have e4 : (('x' : Char) :: b :: d2').dropWhile pySpaceB = 'x' :: b :: d2' := by
    rw [List.dropWhile_cons, if_neg (by decide)]
  have e5 : (b :: d2').dropWhile pySpaceB = b :: d2' := by
    rw [List.dropWhile_cons, if_neg (by simp [hb])]
  have e6 : (b :: d2').takeWhile Char.isDigit = b :: d2' := takeWhile_eq_self_of_all _ h2
  simp only [resFullmatch]
  rw [e1, e2, if_pos ⟨l1, l1'⟩, e3]
  simp only [e4, e5, e6]
  rw [if_pos (by decide), if_pos ⟨l2, l2'⟩, List.drop_length, List.dropWhile_nil, if_pos rfl]

/-- **C9 (counterexample).** `"5x5"` is two positive integers separated by
`'x'`, yet the parser ignores it: the regex requires each number to have at
least two digits. -/
theorem C9_counterexample_single_digit :
    parse_resolution "5x5" = none ∧ (0 : Nat) < 5 :=
  ⟨rfl, by decide⟩

/-- **C9 (amended).** Resolution parsing accepts exactly strings of two
positive integers *of two to five digits each*, separated by `'x'`, `'X'` or
`','` with optional surrounding whitespace, producing `"WIDTH,HEIGHT"` for the
renderer; every other input — including single-digit pairs such as `"5x5"` —
is silently ignored.  `"1920x1080"` parses to width 1920 and height 1080,
while `"0x0"` and `"abcx100"` are ignored. -/
theorem C9_resolution_parsing_amended :
    (parse_resolution "1920x1080" = some "1920,1080" ∧
     parse_resolution "0x0" = none ∧
     parse_resolution "abcx100" = none ∧
     parse_resolution " 1280 X 720 " = some "1280,720") ∧
    (∀ v r, parse_resolution v = some r →
      ∃ d1 d2, resFullmatch v.toList = some (d1, d2) ∧
        2 ≤ d1.length ∧ d1.length ≤ 5 ∧ 2 ≤ d2.length ∧ d2.length ≤ 5 ∧
        (∀ c ∈ d1, c.isDigit = true) ∧ (∀ c ∈ d2, c.isDigit = true) ∧
        0 < natOfDigits d1 ∧ 0 < natOfDigits d2 ∧
        r = toString (natOfDigits d1) ++ "," ++ toString (natOfDigits d2)) ∧
    (∀ d1 d2 : List Char,
      (∀ c ∈ d1, c.isDigit = true) → (∀ c ∈ d2, c.isDigit = true) →
      2 ≤ d1.length → d1.length ≤ 5 → 2 ≤ d2.length → d2.length ≤ 5 →
      0 < natOfDigits d1 → 0 < natOfDigits d2 →
      parse_resolution (String.mk (d1 ++ 'x' :: d2)) =
        some (toString (natOfDigits d1) ++ "," ++ toString (natOfDigits d2))) := by
  refine ⟨⟨rfl, rfl, rfl, rfl⟩, ?_, ?_⟩
  · intro v r h
    unfold parse_resolution at h
    cases hm : resFullmatch v.toList with
    | none => rw [hm] at h; exact absurd h (by simp)
    | some p =>
      obtain ⟨d1, d2⟩ := p
      rw [hm] at h
      simp only at h
      by_cases hz : (natOfDigits d1 == 0 || natOfDigits d2 == 0) = true
      · rw [if_pos hz] at h
        exact absurd h (by simp)
      · rw [if_neg hz] at h
        obtain ⟨s1, s2, s3, s4, s5, s6⟩ := resFullmatch_sound _ _ _ hm
        simp only [Bool.or_eq_true, beq_iff_eq, not_or] at hz
        exact ⟨d1, d2, rfl, s1, s2, s3, s4, s5, s6,
          Nat.pos_of_ne_zero hz.1, Nat.pos_of_ne_zero hz.2, (Option.some.inj h).symm⟩
  · intro d1 d2 h1 h2 l1 l1' l2 l2' p1 p2
    have hm : resFullmatch (String.mk (d1 ++ 'x' :: d2)).toList = some (d1, d2) :=
      resFullmatch_complete d1 d2 h1 h2 l1 l1' l2 l2'
    unfold parse_resolution
    rw [hm]
    simp only
    rw [if_neg (by simp [Nat.pos_iff_ne_zero.mp p1, Nat.pos_iff_ne_zero.mp p2])]

/-- A single-character pattern occurs as a substring iff it is a member. -/
theorem containsSub_single (a : Char) (l : List Char) : containsSub [a] l = true ↔ a ∈ l := by
  induction l with
  | nil => simp [containsSub]
  | cons c rest ih =>
    have hpre : ([a] : List Char).isPrefixOf (c :: rest) = (a == c) := by
      show (a == c && List.isPrefixOf [] rest) = (a == c)
      simp [List.isPrefixOf]
    show (([a] : List Char).isPrefixOf (c :: rest) || containsSub [a] rest) = true ↔ a ∈ c :: rest
    rw [hpre]
    simp [ih, List.mem_cons]

/-- Characters outside the replacement and the input never appear in a
replacement result. -/
theorem replaceLF_not_mem (a : Char) (pat repl : List Char) (hr : a ∉ repl) :
    ∀ f l, l.length ≤ f → a ∉ l → a ∉ replaceLF pat repl f l := by
  intro f
  induction f with
  | zero =>
    intro l hl ha
    obtain rfl := List.length_eq_zero.mp (Nat.le_zero.mp hl)
    simp [replaceLF]
  | succ f ih =>
    intro l hl ha
    cases l with
    | nil => simp [replaceLF]
    | cons c rest =>
      simp only [replaceLF]
      split_ifs with hp
      · intro hmem
        rcases List.mem_append.mp hmem with h | h
        · exact hr h
        · refine ih _ ?_ (fun hd => ha (List.drop_subset _ _ hd)) h
          rw [List.length_drop]
          have hplen : 0 < pat.length := List.length_pos.mpr hp.1
          simp only [List.length_cons] at hl ⊢
          omega
      · intro hmem
        rcases List.mem_cons.mp hmem with rfl | h
        · exact ha (List.mem_cons_self _ _)
        · exact ih rest (Nat.le_of_succ_le_succ hl)
            (fun hd => ha (List.mem_cons_of_mem _ hd)) h

/-- A character of the replacement string survives replacement whenever it was
already in the input. -/
theorem replaceLF_mem_of_repl (a : Char) (pat repl : List Char) (hr : a ∈ repl) :
    ∀ f l, a ∈ l → a ∈ replaceLF pat repl f l := by
  intro f
  induction f with
  | zero =>
    intro l ha
    cases l with
    | nil => simp at ha
    | cons c rest => simpa [replaceLF] using ha
  | succ f ih =>
    intro l ha
    cases l with
    | nil => simp at ha
    | cons c rest =>
      simp only [replaceLF]
      split_ifs with hp
      · exact List.mem_append.mpr (Or.inl hr)
      · rcases List.mem_cons.mp ha with rfl | h
        · exact List.mem_cons_self _ _
        · exact List.mem_cons_of_mem _ (ih rest h)

/-- Replacement is the identity when the pattern head never occurs. -/
theorem replaceLF_head_notin_id (p0 : Char) (pat' repl : List Char) :
    ∀ f l, p0 ∉ l → replaceLF (p0 :: pat') repl f l = l := by
  intro f
  induction f with
  | zero =>
    intro l _
    cases l <;> rfl
  | succ f ih =>
    intro l hnotin
    cases l with
    | nil => rfl
    | cons c rest =>
      have hpre : (p0 :: pat').isPrefixOf (c :: rest) = false := by
        show (p0 == c && pat'.isPrefixOf rest) = false
        simp [show p0 ≠ c from fun e => hnotin (e ▸ List.mem_cons_self _ _)]
      simp only [replaceLF]
      rw [if_neg (fun hcond => by rw [hpre] at hcond; exact Bool.false_ne_true hcond.2),
        ih rest (fun hd => hnotin (List.mem_cons_of_mem _ hd))]

/-- Replacing the single-character pattern `[a]` by `[b]` removes every `a`. -/
theorem replaceLF_single_gone (a b : Char) (hab : a ≠ b) :
    ∀ f l, l.length ≤ f → a ∉ replaceLF [a] [b] f l := by
  intro f
  induction f with
  | zero =>
    intro l hl
    obtain rfl := List.length_eq_zero.mp (Nat.le_zero.mp hl)
    simp [replaceLF]
  | succ f ih =>
    intro l hl
    cases l with
    | nil => simp [replaceLF]
    | cons c rest =>
      simp only [replaceLF]
      split_ifs with hp
      · intro hmem
        rcases List.mem_append.mp hmem with h | h
        · simp at h; exact hab h
        · exact ih ((c :: rest).drop 1) (by simpa using Nat.le_of_succ_le_succ hl) h
      · have hcne : c ≠ a := by
          intro e
          subst e
          exact hp ⟨by simp, by show (c == c && List.isPrefixOf [] rest) = true; simp [List.isPrefixOf]⟩
        intro hmem
        rcases List.mem_cons.mp hmem with rfl | h
        · exact hcne rfl
        · exact ih rest (Nat.le_of_succ_le_succ hl) h

/-- The CR-normalization stage leaves no carriage return behind. -/
theorem cr_not_mem_crNormL (l : List Char) : '\r' ∉ crNormL l :=
  replaceLF_single_gone '\r' '\n' (by decide) _ _ le_rfl

/-- The CR-normalization stage preserves the presence of a newline. -/
theorem nl_mem_crNormL {l : List Char} (h : '\n' ∈ l) : '\n' ∈ crNormL l :=
  replaceLF_mem_of_repl '\n' _ _ (by simp) _ _
    (replaceLF_mem_of_repl '\n' _ _ (by simp) _ _ h)

/-- The CR-normalization stage is the identity on CR-free text. -/
theorem crNormL_id {l : List Char} (h : '\r' ∉ l) : crNormL l = l := by
  unfold crNormL replaceL
  rw [show ("\r\n".toList : List Char) = '\r' :: ['\n'] from rfl,
    show ("\r".toList : List Char) = '\r' :: [] from rfl,
    replaceLF_head_notin_id '\r' ['\n'] _ _ _ h,
    replaceLF_head_notin_id '\r' [] _ _ _ h]

/-- The escape-decoding stage introduces no carriage return. -/
theorem cr_not_mem_escReplL {l : List Char} (h : '\r' ∉ l) : '\r' ∉ escReplL l := by
  unfold escReplL
  refine replaceLF_not_mem '\r' _ _ (by decide) _ _ le_rfl ?_
  refine replaceLF_not_mem '\r' _ _ (by decide) _ _ le_rfl ?_
  exact replaceLF_not_mem '\r' _ _ (by decide) _ _ le_rfl h

/-- Method 1 only returns paths that passed the existence check (modulo
`Path.resolve`). -/
theorem scanOutputLines_exists (fs : FS) :
    ∀ ls p, scanOutputLines fs ls = some p →
      ∃ r, p = fs.resolve r ∧ fs.exists_file r = true := by
  intro ls
  induction ls with
  | nil => intro p h; simp [scanOutputLines] at h
  | cons l ls ih =>
    intro p h
    simp only [scanOutputLines] at h
    split_ifs at h with h1
    · split at h
      next m hm =>
        split_ifs at h with h2
        · exact ⟨_, (Option.some.inj h).symm, h2⟩
        · exact ih p h
      next => exact ih p h
    · exact ih p h

/-- Methods 2/3 only return (resolved) `rglob` results, which exist on disk
for a well-formed filesystem. -/
theorem searchBases_exists (fs : FS) (hwf : GlobWF fs) (pat : String) :
    ∀ bs p, searchBases fs pat bs = some p →
      ∃ r, p = fs.resolve r ∧ fs.exists_file r = true := by
  intro bs
  induction bs with
  | nil => intro p h; simp [searchBases] at h
  | cons b bs ih =>
    intro p h
    simp only [searchBases] at h
    split_ifs at h with h1
    · cases hg : fs.glob b pat with
      | nil => rw [hg] at h; simp only at h; exact ih p h
      | cons r rest =>
        rw [hg] at h
        simp only at h
        exact ⟨r, (Option.some.inj h).symm,
          hwf b pat r (by rw [hg]; exact List.mem_cons_self _ _)⟩
    · exact ih p h

/-- Every path `_find_video` returns was seen to exist at the time of its
check (its pre-`resolve` form). -/
theorem find_video_exists (fs : FS) (hwf : GlobWF fs)
    (stdout stderr scene_name run_dir output_dir p : String)
    (h : find_video fs stdout stderr scene_name run_dir output_dir = some p) :
    ∃ r, p = fs.resolve r ∧ fs.exists_file r = true := by
  simp only [find_video] at h
  split at h
  next q hq => exact (Option.some.inj h) ▸ scanOutputLines_exists fs _ _ hq
  next hq =>
    split at h
    next q hq2 => exact (Option.some.inj h) ▸ searchBases_exists fs hwf _ _ _ hq2
    next hq2 => exact searchBases_exists fs hwf _ _ _ h

/-- Same for the server-side inline search. -/
theorem server_find_video_exists (fs : FS) (hwf : GlobWF fs)
    (stdout stderr scene_name run_dir p : String)
    (h : server_find_video fs stdout stderr scene_name run_dir = some p) :
    ∃ r, p = fs.resolve r ∧ fs.exists_file r = true := by
  simp only [server_find_video] at h
  split at h
  next q hq => exact (Option.some.inj h) ▸ scanOutputLines_exists fs _ _ hq
  next hq =>
    split at h
    next q hq2 => exact (Option.some.inj h) ▸ searchBases_exists fs hwf _ _ _ hq2
    next hq2 => exact searchBases_exists fs hwf _ _ _ h

/-- A successful server render result can only arise from a completed
subprocess with exit code 0 and a video path that existed when checked. -/
theorem render_success_characterization (fs : FS) (hwf : GlobWF fs)
    (lockHeld : Bool) (codeText : String) (parsed : Except SynErr PyNode)
    (scene_name run_dir : String) (ev : ServerEvent)
    (h : (render_manim_scene lockHeld fs codeText parsed scene_name run_dir ev).result.success
      = true) :
    ∃ rc out err, ev = .completed rc out err ∧ rc = 0 ∧
      ∃ p r,
        (render_manim_scene lockHeld fs codeText parsed scene_name run_dir ev).result.video_path
          = some p ∧
        p = fs.resolve r ∧ fs.exists_file r = true := by
  cases lockHeld with
  | true => simp [render_manim_scene] at h
  | false =>
    cases hv : validate_generated_manim_code parsed with
    | error msg => simp [render_manim_scene, hv] at h
    | ok u =>
      cases ev with
      | timedOut => simp [render_manim_scene, hv] at h
      | innerFailed m sp => simp [render_manim_scene, hv] at h
      | outerFailed m => simp [render_manim_scene, hv] at h
      | completed rc out err =>
        have hR : render_manim_scene false fs codeText parsed scene_name run_dir
            (.completed rc out err) =
            ⟨false, true, server_completed_result fs rc out err scene_name run_dir⟩ := by
          simp [render_manim_scene, hv]
        rw [hR] at h ⊢
        simp only [server_completed_result] at h ⊢
        rw [Bool.and_eq_true] at h
        obtain ⟨hrc, hs⟩ := h
        have hrc0 : rc = 0 := eq_of_beq hrc
        rw [if_pos hrc] at hs ⊢
        obtain ⟨q, hq⟩ := Option.isSome_iff_exists.mp hs
        obtain ⟨r, hr1, hr2⟩ := server_find_video_exists fs hwf out err scene_name run_dir q hq
        exact ⟨rc, out, err, rfl, hrc0, q, r, hq, hr1, hr2⟩

/-- **C1.** An execution attempt reports `success = true` only if the render
process exit indicated success (exit code 0) *and* an artifact path was
resolved to a file that existed at the time of the check — on both the
direct-subprocess path and the MCP path of `execute` (where the structured
payload carries the server's render result). -/
theorem C1_success_requires_existing_artifact (fs : FS) (hwf : GlobWF fs) :
    (∀ (parsed : Except SynErr PyNode) (csn : Option String) (code m : String)
        (rc : Int) (out err run_dir output_dir : String) (t : Nat),
      (execute fs parsed csn code (.raised m) (.completed rc out err)
          run_dir output_dir t).result.success = true →
      rc = 0 ∧ ∃ p r,
        (execute fs parsed csn code (.raised m) (.completed rc out err)
            run_dir output_dir t).result.video_path = some p ∧
        p = fs.resolve r ∧ fs.exists_file r = true) ∧
    (∀ (parsed : Except SynErr PyNode) (csn : Option String) (code : String)
        (ct : List String) (lockHeld : Bool) (codeText : String)
        (sparsed : Except SynErr PyNode) (sscene srun : String) (ev : ServerEvent)
        (dev : DirectEvent) (run_dir output_dir : String) (t : Nat),
      (execute fs parsed csn code
          (.returned ⟨false, ct,
            some (render_manim_scene lockHeld fs codeText sparsed sscene srun ev).result⟩)
          dev run_dir output_dir t).result.success = true →
      (∃ rc out err, ev = .completed rc out err ∧ rc = 0) ∧
      (∃ p r,
        (render_manim_scene lockHeld fs codeText sparsed sscene srun ev).result.video_path
          = some p ∧
        p = fs.resolve r ∧ fs.exists_file r = true) ∧
      ∃ q, (execute fs parsed csn code
          (.returned ⟨false, ct,
            some (render_manim_scene lockHeld fs codeText sparsed sscene srun ev).result⟩)
          dev run_dir output_dir t).result.video_path = some q) := by
  constructor
  · intro parsed csn code m rc out err run_dir output_dir t h
    cases hv : validate_generated_manim_code parsed with
    | error msg => simp [execute, hv] at h
    | ok u =>
      have hE : execute fs parsed csn code (.raised m) (.completed rc out err)
          run_dir output_dir t =
          ⟨execute_direct fs (.completed rc out err) (resolved_scene_name csn code)
            run_dir output_dir t, true, true⟩ := by
        simp [execute, hv]
      rw [hE] at h ⊢
      simp only [execute_direct] at h ⊢
      rw [Bool.and_eq_true] at h
      obtain ⟨hrc, hs⟩ := h
      obtain ⟨q, hq⟩ := Option.isSome_iff_exists.mp hs
      obtain ⟨r, hr1, hr2⟩ := find_video_exists fs hwf _ _ _ _ _ _ hq
      exact ⟨eq_of_beq hrc, q, r, hq, hr1, hr2⟩
  · intro parsed csn code ct lockHeld codeText sparsed sscene srun ev dev run_dir output_dir t h
    cases hv : validate_generated_manim_code parsed with
    | error msg => simp [execute, hv] at h
    | ok u =>
      have hE : ∀ tr, execute fs parsed csn code (.returned tr) dev run_dir output_dir t =
          ⟨parse_mcp_tool_result fs tr, false, false⟩ := by
        intro tr; simp [execute, hv]
      rw [hE] at h ⊢
      have hps : (parse_mcp_tool_result fs ⟨false, ct,
          some (render_manim_scene lockHeld fs codeText sparsed sscene srun ev).result⟩).success =
          (render_manim_scene lockHeld fs codeText sparsed sscene srun ev).result.success := by
        simp [parse_mcp_tool_result]
      rw [hps] at h
      obtain ⟨rc, out, err, hev, hrc0, p, r, hp, hr1, hr2⟩ :=
        render_success_characterization fs hwf lockHeld codeText sparsed sscene srun ev h
      refine ⟨⟨rc, out, err, hev, hrc0⟩, ⟨p, r, hp, hr1, hr2⟩, ?_⟩
      by_cases hbr : (p != "" && fs.exists_file p) = true
      · exact ⟨fs.resolve p, by simp [parse_mcp_tool_result, hp, hbr]⟩
      · exact ⟨p, by simp [parse_mcp_tool_result, hp, hbr]⟩

/-- Witness for C1 at a concrete input: a zero exit code whose output names an
existing video file yields a successful outcome, and the theorem recovers the
existence facts. -/
theorem C1_success_requires_existing_artifact_witness :
    (0 : Int) = 0 ∧ ∃ p r,
      (execute ⟨fun _ => true, fun _ _ => [], fun s => s⟩ (.ok (.module []))
          (some "S") "pass" (.raised "boom") (.completed 0 " /tmp/v.mp4" "")
          "/r" "/o" 300).result.video_path = some p ∧
      p = FS.resolve ⟨fun _ => true, fun _ _ => [], fun s => s⟩ r ∧
      FS.exists_file ⟨fun _ => true, fun _ _ => [], fun s => s⟩ r = true :=
  (C1_success_requires_existing_artifact ⟨fun _ => true, fun _ _ => [], fun s => s⟩
      (fun _ _ x hx => absurd hx (List.not_mem_nil x))).1
    (.ok (.module [])) (some "S") "pass" "boom" 0 " /tmp/v.mp4" "" "/r" "/o" 300 rfl

/-- **C10.** The render server rewrites the submitted code before validation
and execution: carriage-return line endings are normalized to newlines (no
carriage return ever survives); when the (CR-normalized) code contains the
two-character sequence `\n` but no real newline, the literal `\r\n`, `\n` and
`\t` escapes are decoded to real control characters; and code that already
contains a real newline passes through unchanged apart from CR
normalization — in particular unchanged outright when it has no carriage
return. -/
theorem C10_code_normalization (s : String) :
    '\r' ∉ (normalize_code_input s).toList ∧
    ('\n' ∈ s.toList → normalize_code_input s = String.mk (crNormL s.toList)) ∧
    ('\n' ∈ s.toList → '\r' ∉ s.toList → normalize_code_input s = s) ∧
    ('\n' ∉ s.toList → '\r' ∉ s.toList → containsSubS "\\n" s = true →
      normalize_code_input s = String.mk (escReplL s.toList)) ∧
    normalize_code_input "a\r\nb\rc" = "a\nb\nc" ∧
    normalize_code_input "l1\\r\\nl2\\nl3\\tx" = "l1\nl2\nl3\tx" ∧
    normalize_code_input "x\ny\\nz" = "x\ny\\nz" := by
  have key2 : '\n' ∈ s.toList → normalize_code_input s = String.mk (crNormL s.toList) := by
    intro h
    have hB : containsSub "\n".toList (crNormL s.toList) = true :=
      (containsSub_single '\n' _).mpr (nl_mem_crNormL h)
    show String.mk (normalizeL s.toList) = String.mk (crNormL s.toList)
    simp only [normalizeL]
    rw [if_neg (fun hcond => by rw [hB] at hcond; simp at hcond)]
  refine ⟨?_, key2, ?_, ?_, rfl, rfl, rfl⟩
  · show '\r' ∉ normalizeL s.toList
    simp only [normalizeL]
    split_ifs with hc
    · exact cr_not_mem_escReplL (cr_not_mem_crNormL _)
    · exact cr_not_mem_crNormL _
  · intro h hr
    rw [key2 h, crNormL_id hr]
    rfl
  · intro h hr h3
    have hA : containsSub "\\n".toList s.toList = true := h3
    have hB : containsSub "\n".toList s.toList = false := by
      cases hcb : containsSub "\n".toList s.toList
      · rfl
      · exact absurd ((containsSub_single '\n' _).mp hcb) h
    show String.mk (normalizeL s.toList) = String.mk (escReplL s.toList)
    simp only [normalizeL]
    rw [crNormL_id hr, if_pos (by rw [hA, hB]; rfl)]

theorem nodesSize_append : ∀ a b : List PyNode, nodesSize (a ++ b) = nodesSize a + nodesSize b
  | [], b => by simp [nodesSize]
  | n :: a, b => by
    show nodeSize n + nodesSize (a ++ b) = nodeSize n + nodesSize a + nodesSize b
    rw [nodesSize_append a b]
    omega

theorem nodeSize_pos : ∀ n : PyNode, 0 < nodeSize n := by
  intro n
  cases n <;> simp [nodeSize]

theorem nodesSize_children_lt (n : PyNode) : nodesSize (children n) < nodeSize n := by
  cases n <;> simp [children, nodeSize, nodesSize, nodesSize_append]

/-- If the BFS walk raises no violation, no walked node violates. -/
theorem firstViolationF_none_sound :
    ∀ f q, nodesSize q ≤ f → firstViolationF f q = none →
      ∀ n ∈ walkListF f q, checkNode n = none := by
  intro f
  induction f with
  | zero =>
    intro q hq hv n hn
    cases q with
    | nil => simp [walkListF] at hn
    | cons x q' =>
      exfalso
      have := nodeSize_pos x
      simp only [nodesSize] at hq
      omega
  | succ f ih =>
    intro q hq hv n hn
    cases q with
    | nil => simp [walkListF] at hn
    | cons x q' =>
      simp only [firstViolationF] at hv
      simp only [walkListF, List.mem_cons] at hn
      cases hc : checkNode x with
      | some msg => rw [hc] at hv; exact absurd hv (by simp)
      | none =>
        rw [hc] at hv
        have hsz : nodesSize (q' ++ children x) ≤ f := by
          have h1 := nodesSize_children_lt x
          have h2 := nodesSize_append q' (children x)
          simp only [nodesSize] at hq
          omega
        rcases hn with rfl | hn'
        · exact hc
        · exact ih (q' ++ children x) hsz hv n hn'

/-- The first violation's message is the check of the first violating node. -/
theorem firstViolationF_eq_firstBadF :
    ∀ f q, firstViolationF f q = (firstBadF f q).bind checkNode := by
  intro f
  induction f with
  | zero =>
    intro q
    cases q <;> rfl
  | succ f ih =>
    intro q
    cases q with
    | nil => rfl
    | cons x q' =>
      simp only [firstViolationF, firstBadF]
      cases hc : checkNode x with
      | some msg => simp [hc]
      | none => simp [hc, ih]

/-- An import node with a denylisted root module violates the check. -/
theorem checkNode_isSome_of_isImportOf {mod : String} {n : PyNode}
    (hmod : mod ∈ DANGEROUS_MODULES) (hn : isImportOf mod n = true) :
    (checkNode n).isSome = true := by
  cases n with
  | imprt ns =>
    simp only [isImportOf] at hn
    obtain ⟨nm, hmem, hroot⟩ := List.any_eq_true.mp hn
    cases hfd : firstDangerousRoot ns with
    | some r => simp [checkNode, hfd]
    | none =>
      exfalso
      unfold firstDangerousRoot at hfd
      have := List.findSome?_eq_none_iff.mp hfd nm hmem
      rw [show rootModule nm = mod from by simpa using hroot, if_pos hmod] at this
      exact absurd this (by simp)
  | importFrom mn ns =>
    simp only [isImportOf, beq_iff_eq] at hn
    simp [checkNode, hn, hmod]
  | module b => simp [isImportOf] at hn
  | funcDef f b => simp [isImportOf] at hn
  | classDef c bs b => simp [isImportOf] at hn
  | exprStmt e => simp [isImportOf] at hn
  | assign t v => simp [isImportOf] at hn
  | call f a => simp [isImportOf] at hn
  | attr o fl => simp [isImportOf] at hn
  | nameE i => simp [isImportOf] at hn
  | constE => simp [isImportOf] at hn

/-- A bare call of a blocked name violates the check. -/
theorem checkNode_isSome_of_isBareCallOf {fn : String} {n : PyNode}
    (hfn : fn ∈ BLOCKED_CALL_NAMES) (hn : isBareCallOf fn n = true) :
    (checkNode n).isSome = true := by
  cases n with
  | call g args =>
    cases g with
    | nameE id =>
      simp only [isBareCallOf, beq_iff_eq] at hn
      subst hn
      simp [checkNode, hfn]
    | module b => simp [isBareCallOf] at hn
    | imprt ns => simp [isBareCallOf] at hn
    | importFrom mn ns => simp [isBareCallOf] at hn
    | funcDef f b => simp [isBareCallOf] at hn
    | classDef c bs b => simp [isBareCallOf] at hn
    | exprStmt e => simp [isBareCallOf] at hn
    | assign t v => simp [isBareCallOf] at hn
    | call f a => simp [isBareCallOf] at hn
    | attr o fl => simp [isBareCallOf] at hn
    | constE => simp [isBareCallOf] at hn
  | module b => simp [isBareCallOf] at hn
  | imprt ns => simp [isBareCallOf] at hn
  | importFrom mn ns => simp [isBareCallOf] at hn
  | funcDef f b => simp [isBareCallOf] at hn
  | classDef c bs b => simp [isBareCallOf] at hn
  | exprStmt e => simp [isBareCallOf] at hn
  | assign t v => simp [isBareCallOf] at hn
  | attr o fl => simp [isBareCallOf] at hn
  | nameE i => simp [isBareCallOf] at hn
  | constE => simp [isBareCallOf] at hn

/-- If some walked node violates, validation rejects. -/
theorem validate_error_of_walk_mem {m : PyNode} {n : PyNode}
    (hmem : n ∈ walkList [m]) (hbad : (checkNode n).isSome = true) :
    ∃ msg, validate_generated_manim_code (.ok m) = .error msg := by
  cases hv : firstViolation [m] with
  | some msg => exact ⟨msg, by simp [validate_generated_manim_code, hv]⟩
  | none =>
    exfalso
    have := firstViolationF_none_sound (nodesSize [m]) [m] le_rfl hv n hmem
    rw [this] at hbad
    exact absurd hbad (by simp)

theorem isPrefixOf_append_self : ∀ p t : List Char, p.isPrefixOf (p ++ t) = true
  | [], t => by cases t <;> rfl
  | a :: p, t => by
    show (a == a && p.isPrefixOf (p ++ t)) = true
    simp [isPrefixOf_append_self p t]

theorem containsSub_append_self : ∀ pre pat suf : List Char,
    containsSub pat (pre ++ pat ++ suf) = true
  | [], pat, suf => by
    cases pat with
    | nil =>
      cases suf with
      | nil => rfl
      | cons c cs => simp [containsSub, List.isPrefixOf]
    | cons p ps =>
      show ((p :: ps).isPrefixOf ((p :: ps) ++ suf) || _) = true
      rw [isPrefixOf_append_self]
      simp
  | x :: pre, pat, suf => by
    show (pat.isPrefixOf (x :: (pre ++ pat ++ suf)) || containsSub pat (pre ++ pat ++ suf)) = true
    rw [containsSub_append_self pre pat suf]
    simp

/-- **C5 (counterexample).** The claim says every code containing `import os`
is rejected *with the offending module name*.  This tree contains `import os`
(inside a function body) and is rejected — but the walk meets the `eval` call
first, so the reason names `eval` and does not contain `os`. -/
theorem C5_counterexample_reason_names_earlier_violation :
    (walkList [c5ex]).any (isImportOf "os") = true ∧
    validate_generated_manim_code (.ok c5ex) =
      .error "Blocked function call detected: 'eval()'." ∧
    containsSubS "os" "Blocked function call detected: 'eval()'." = false :=
  ⟨rfl, rfl, rfl⟩

/-- **C5 (amended).** For every code whose tree contains an import (plain or
`from`-import) of a denylisted module: validation rejects the code; the
rejection reason is `Blocked import detected: '<module>'.` whenever that
blocked import is the first blocked construct in `ast.walk` order (otherwise the
reason names the earlier violation); `execute` returns the rejection as a
failed outcome without using the transport or the fallback subprocess; and
the render server likewise fails such a request without spawning a render
process. -/
theorem C5_blocked_import_rejected_amended (m : PyNode) (mod : String)
    (hmod : mod ∈ DANGEROUS_MODULES)
    (hin : (walkList [m]).any (isImportOf mod) = true) :
    (∃ msg, validate_generated_manim_code (.ok m) = .error msg) ∧
    (∀ ns r, firstBad [m] = some (.imprt ns) → firstDangerousRoot ns = some r →
      validate_generated_manim_code (.ok m) =
        .error ("Blocked import detected: '" ++ r ++ "'.")) ∧
    (∀ msg fs csn code mev dev run_dir output_dir t,
      validate_generated_manim_code (.ok m) = .error msg →
      execute fs (.ok m) csn code mev dev run_dir output_dir t =
        ⟨⟨false, none, some msg, none⟩, false, false⟩) ∧
    (∀ fs codeText scene run_dir ev,
      (render_manim_scene false fs codeText (.ok m) scene run_dir ev).spawned = false ∧
      (render_manim_scene false fs codeText (.ok m) scene run_dir ev).result.success = false) := by
  obtain ⟨n, hmem, hni⟩ := List.any_eq_true.mp hin
  obtain ⟨msg, hmsg⟩ :=
    validate_error_of_walk_mem hmem (checkNode_isSome_of_isImportOf hmod hni)
  refine ⟨⟨msg, hmsg⟩, ?_, ?_, ?_⟩
  · intro ns r hfb hfd
    have hv : firstViolation [m] = some ("Blocked import detected: '" ++ r ++ "'.") := by
      unfold firstViolation
      rw [firstViolationF_eq_firstBadF, show firstBadF (nodesSize [m]) [m] = some (.imprt ns)
        from hfb]
      simp [checkNode, hfd]
    simp [validate_generated_manim_code, hv]
  · intro msg' fs csn code mev dev run_dir output_dir t h
    simp [execute, h]
  · intro fs codeText scene run_dir ev
    constructor <;> simp [render_manim_scene, hmsg]

/-- Witness for C5 at a concrete input: a module consisting of `import os`. -/
theorem C5_blocked_import_rejected_amended_witness :
    (∃ msg, validate_generated_manim_code (.ok (.module [.imprt ["os"]])) = .error msg) ∧
    validate_generated_manim_code (.ok (.module [.imprt ["os"]])) =
      .error "Blocked import detected: 'os'." ∧
    execute ⟨fun _ => false, fun _ _ => [], fun s => s⟩ (.ok (.module [.imprt ["os"]]))
        none "import os" (.raised "x") .timedOut "/r" "/o" 300 =
      ⟨⟨false, none, some "Blocked import detected: 'os'.", none⟩, false, false⟩ ∧
    (render_manim_scene false ⟨fun _ => false, fun _ _ => [], fun s => s⟩ "import os"
        (.ok (.module [.imprt ["os"]])) "Scene" "/r" .timedOut).spawned = false := by
  have H := C5_blocked_import_rejected_amended (.module [.imprt ["os"]]) "os"
    (by decide) (by decide)
  have hval := H.2.1 ["os"] "os" rfl rfl
  exact ⟨H.1, hval,
    H.2.2.1 "Blocked import detected: 'os'." ⟨fun _ => false, fun _ _ => [], fun s => s⟩
      none "import os" (.raised "x") .timedOut "/r" "/o" 300 hval,
    (H.2.2.2 ⟨fun _ => false, fun _ _ => [], fun s => s⟩ "import os" "Scene" "/r" .timedOut).1⟩

/-- **C8 (counterexample).** The claim says every code containing an `eval`
or `exec` call is rejected with the call name in the reason.  This tree
contains `eval(...)` and is rejected — but the walk meets `import os` first,
so the reason does not contain `eval`. -/
theorem C8_counterexample_reason_names_earlier_violation :
    (walkList [c8ex]).any (isBareCallOf "eval") = true ∧
    validate_generated_manim_code (.ok c8ex) = .error "Blocked import detected: 'os'." ∧
    containsSubS "eval" "Blocked import detected: 'os'." = false :=
  ⟨rfl, rfl, rfl⟩

/-- **C8 (amended).** For every code whose tree contains a call whose callee
is a bare blocked name (`eval`, `exec`, …): validation rejects the code, and
whenever that call is the first blocked construct in `ast.walk` order the
rejection reason is `Blocked function call detected: '<name>()'.`, which
contains the call name (otherwise the reason names the earlier violation). -/
theorem C8_blocked_call_rejected_amended (m : PyNode) (fn : String)
    (hfn : fn ∈ BLOCKED_CALL_NAMES)
    (hin : (walkList [m]).any (isBareCallOf fn) = true) :
    (∃ msg, validate_generated_manim_code (.ok m) = .error msg) ∧
    (∀ g args, firstBad [m] = some (.call (.nameE g) args) → g ∈ BLOCKED_CALL_NAMES →
      validate_generated_manim_code (.ok m) =
        .error ("Blocked function call detected: '" ++ g ++ "()'.") ∧
      containsSubS g ("Blocked function call detected: '" ++ g ++ "()'.") = true) := by
  obtain ⟨n, hmem, hni⟩ := List.any_eq_true.mp hin
  refine ⟨validate_error_of_walk_mem hmem (checkNode_isSome_of_isBareCallOf hfn hni), ?_⟩
  intro g args hfb hg
  constructor
  · have hv : firstViolation [m] =
        some ("Blocked function call detected: '" ++ g ++ "()'.") := by
      unfold firstViolation
      rw [firstViolationF_eq_firstBadF, show firstBadF (nodesSize [m]) [m] =
        some (.call (.nameE g) args) from hfb]
      simp [checkNode, hg]
    simp [validate_generated_manim_code, hv]
  · show containsSub g.toList
      (("Blocked function call detected: '" ++ g ++ "()'.") : String).toList = true
    have hdata : (("Blocked function call detected: '" ++ g ++ "()'.") : String).toList =
        ("Blocked function call detected: '" : String).toList ++ g.toList ++
          ("()'." : String).toList := by
      show (("Blocked function call detected: '" ++ g ++ "()'.") : String).data = _
      rw [String.data_append, String.data_append]
      rfl
    rw [hdata]
    exact containsSub_append_self _ _ _

/-- Witness for C8 at a concrete input: a module consisting of `exec(...)`. -/
theorem C8_blocked_call_rejected_amended_witness :
    (∃ msg, validate_generated_manim_code
      (.ok (.module [.exprStmt (.call (.nameE "exec") [.constE])])) = .error msg) ∧
    validate_generated_manim_code
      (.ok (.module [.exprStmt (.call (.nameE "exec") [.constE])])) =
      .error "Blocked function call detected: 'exec()'." ∧
    containsSubS "exec" "Blocked function call detected: 'exec()'." = true := by
  have H := C8_blocked_call_rejected_amended
    (.module [.exprStmt (.call (.nameE "exec") [.constE])]) "exec" (by decide) (by decide)
  have H2 := H.2 "exec" [.constE] rfl (by decide)
  exact ⟨H.1, H2.1, H2.2⟩

/-- `should_retry` answers `"end"` on a failed attempt at the ceiling. -/
theorem should_retry_end_of_fail {e : Option ManimExecutionResult} {r c : Nat}
    (hfail : execSuccess e = false) (hge : c ≤ r) : should_retry e r c = "end" := by
  unfold should_retry
  rw [hfail, if_neg (by simp), if_neg (by omega)]

/-- `should_retry` answers `"fix"` on a failed attempt under the ceiling. -/
theorem should_retry_fix_of_fail {e : Option ManimExecutionResult} {r c : Nat}
    (hfail : execSuccess e = false) (hlt : r < c) : should_retry e r c = "fix" := by
  unfold should_retry
  rw [hfail, if_neg (by simp), if_pos hlt]

/-- `should_retry` answers `"end"` on a successful attempt. -/
theorem should_retry_end_of_success {e : Option ManimExecutionResult} {r c : Nat}
    (hsucc : execSuccess e = true) : should_retry e r c = "end" := by
  unfold should_retry
  rw [hsucc, if_pos rfl]

/-- A `"fix"` answer implies the retry counter was under the ceiling. -/
theorem should_retry_fix_inv {e : Option ManimExecutionResult} {r c : Nat}
    (h : should_retry e r c = "fix") : r < c := by
  unfold should_retry at h
  split_ifs at h with h1 h2
  · exact absurd h (by decide)
  · exact h2
  · exact absurd h (by decide)

/-- An `"end"` iteration of the loop, at any fuel. -/
theorem orchLoop_end_case (outcomes : Nat → ManimExecutionResult) (ceiling fuel : Nat)
    (s : GState)
    (hne : should_retry (run_manim_node outcomes s).execution
      (run_manim_node outcomes s).retries ceiling ≠ "fix") :
    orchLoop outcomes ceiling fuel s = orchEnd (run_manim_node outcomes s) := by
  cases fuel with
  | zero => rfl
  | succ f =>
    simp only [orchLoop]
    rw [if_neg hne]

/-- A `"fix"` iteration of the loop composes with the rest of the run. -/
theorem orchLoop_fix_case (outcomes : Nat → ManimExecutionResult) (ceiling f : Nat)
    (s : GState)
    (hsr : should_retry (run_manim_node outcomes s).execution
      (run_manim_node outcomes s).retries ceiling = "fix") :
    orchLoop outcomes ceiling (f + 1) s =
      ⟨(orchLoop outcomes ceiling f (fix_manim_code_node (run_manim_node outcomes s))).terminal,
       (orchLoop outcomes ceiling f (fix_manim_code_node (run_manim_node outcomes s))).final,
       (orchLoop outcomes ceiling f (fix_manim_code_node (run_manim_node outcomes s))).execCount + 1,
       (orchLoop outcomes ceiling f (fix_manim_code_node (run_manim_node outcomes s))).fixCount + 1,
       (run_manim_node outcomes s).retries ::
         (orchLoop outcomes ceiling f (fix_manim_code_node (run_manim_node outcomes s))).trace⟩ := by
  simp only [orchLoop]
  rw [if_pos hsr]

/-- `orchEnd` of a failed attempt. -/
theorem orchEnd_of_fail (s1 : GState) (h : execSuccess s1.execution = false) :
    orchEnd s1 = ⟨.failed, s1, 1, 0, [s1.retries]⟩ := by
  simp [orchEnd, h]

/-- `orchEnd` of a successful attempt. -/
theorem orchEnd_of_success (s1 : GState) (h : execSuccess s1.execution = true) :
    orchEnd s1 = ⟨.succeeded, s1, 1, 0, [s1.retries]⟩ := by
  simp [orchEnd, h]

/-- When every attempt up to the ceiling fails, the loop runs the remaining
`ceiling - retries` fix transitions and terminates `failed` with
`retries = ceiling`. -/
theorem orchLoop_all_fail (outcomes : Nat → ManimExecutionResult) (ceiling : Nat)
    (hfail : ∀ k, k ≤ ceiling → (outcomes k).success = false) :
    ∀ fuel s, s.retries ≤ ceiling → ceiling ≤ s.retries + fuel →
      (orchLoop outcomes ceiling fuel s).terminal = .failed ∧
      (orchLoop outcomes ceiling fuel s).execCount = ceiling - s.retries + 1 ∧
      (orchLoop outcomes ceiling fuel s).fixCount = ceiling - s.retries ∧
      (orchLoop outcomes ceiling fuel s).final.retries = ceiling := by
  intro fuel
  induction fuel with
  | zero =>
    intro s hle hge
    have hE0 : orchLoop outcomes ceiling 0 s = orchEnd (run_manim_node outcomes s) := rfl
    rw [hE0, orchEnd_of_fail (run_manim_node outcomes s) (hfail s.retries hle)]
    refine ⟨rfl, by dsimp only; omega, by dsimp only; omega, ?_⟩
    show s.retries = ceiling
    omega
  | succ f ih =>
    intro s hle hge
    rcases Nat.lt_or_ge s.retries ceiling with hlt | hge2
    · have hsr : should_retry (run_manim_node outcomes s).execution
          (run_manim_node outcomes s).retries ceiling = "fix" :=
        should_retry_fix_of_fail (hfail s.retries hle) hlt
      rw [orchLoop_fix_case outcomes ceiling f s hsr]
      have hfr : (fix_manim_code_node (run_manim_node outcomes s)).retries = s.retries + 1 := rfl
      have IH := ih (fix_manim_code_node (run_manim_node outcomes s))
        (by rw [hfr]; omega) (by rw [hfr]; omega)
      rw [hfr] at IH
      obtain ⟨iht, ihe, ihf, ihr⟩ := IH
      exact ⟨iht, by dsimp only; rw [ihe]; omega, by dsimp only; rw [ihf]; omega, ihr⟩
    · have hsr : should_retry (run_manim_node outcomes s).execution
          (run_manim_node outcomes s).retries ceiling = "end" :=
        should_retry_end_of_fail (hfail s.retries hle) hge2
      rw [orchLoop_end_case outcomes ceiling (f + 1) s (by rw [hsr]; decide),
        orchEnd_of_fail (run_manim_node outcomes s) (hfail s.retries hle)]
      refine ⟨rfl, by dsimp only; omega, by dsimp only; omega, ?_⟩
      show s.retries = ceiling
      omega

/-- When the first successful attempt is attempt `j`, the loop terminates
`succeeded` right after it, with `j - retries` fix transitions from the
current state. -/
theorem orchLoop_first_success (outcomes : Nat → ManimExecutionResult) (ceiling j : Nat)
    (hj : (outcomes j).success = true)
    (hbefore : ∀ i, i < j → (outcomes i).success = false) :
    ∀ fuel s, s.retries ≤ j → j ≤ ceiling → ceiling ≤ s.retries + fuel →
      (orchLoop outcomes ceiling fuel s).terminal = .succeeded ∧
      (orchLoop outcomes ceiling fuel s).execCount = j - s.retries + 1 ∧
      (orchLoop outcomes ceiling fuel s).fixCount = j - s.retries ∧
      (orchLoop outcomes ceiling fuel s).final.retries = j := by
  intro fuel
  induction fuel with
  | zero =>
    intro s hle hjc hge
    have heq : s.retries = j := by omega
    have hE0 : orchLoop outcomes ceiling 0 s = orchEnd (run_manim_node outcomes s) := rfl
    rw [hE0, orchEnd_of_success (run_manim_node outcomes s)
      (show (outcomes s.retries).success = true from heq ▸ hj)]
    refine ⟨rfl, by dsimp only; omega, by dsimp only; omega, ?_⟩
    show s.retries = j
    omega
  | succ f ih =>
    intro s hle hjc hge
    rcases Nat.lt_or_ge s.retries j with hlt | hge2
    · have hsr : should_retry (run_manim_node outcomes s).execution
          (run_manim_node outcomes s).retries ceiling = "fix" :=
        should_retry_fix_of_fail (hbefore s.retries hlt) (show s.retries < ceiling by omega)
      rw [orchLoop_fix_case outcomes ceiling f s hsr]
      have hfr : (fix_manim_code_node (run_manim_node outcomes s)).retries = s.retries + 1 := rfl
      have IH := ih (fix_manim_code_node (run_manim_node outcomes s))
        (by rw [hfr]; omega) hjc (by rw [hfr]; omega)
      rw [hfr] at IH
      obtain ⟨iht, ihe, ihf, ihr⟩ := IH
      exact ⟨iht, by dsimp only; rw [ihe]; omega, by dsimp only; rw [ihf]; omega, ihr⟩
    · have heq : s.retries = j := by omega
      have hsucc : execSuccess (run_manim_node outcomes s).execution = true :=
        show (outcomes s.retries).success = true from heq ▸ hj
      rw [orchLoop_end_case outcomes ceiling (f + 1) s
          (by rw [should_retry_end_of_success hsucc]; decide),
        orchEnd_of_success _ hsucc]
      refine ⟨rfl, by dsimp only; omega, by dsimp only; omega, ?_⟩
      show s.retries = j
      omega

/-- The retry counter stays at or below the ceiling in every state the loop
visits. -/
theorem orchLoop_bounds (outcomes : Nat → ManimExecutionResult) (ceiling : Nat) :
    ∀ fuel s, s.retries ≤ ceiling →
      (∀ r ∈ (orchLoop outcomes ceiling fuel s).trace, r ≤ ceiling) ∧
      (orchLoop outcomes ceiling fuel s).final.retries ≤ ceiling := by
  intro fuel
  induction fuel with
  | zero =>
    intro s hle
    have hE0 : orchLoop outcomes ceiling 0 s = orchEnd (run_manim_node outcomes s) := rfl
    constructor
    · intro r hr
      rw [hE0] at hr
      have : r = s.retries := by simpa [orchEnd, run_manim_node] using hr
      omega
    · exact hle
  | succ f ih =>
    intro s hle
    by_cases hsr : should_retry (run_manim_node outcomes s).execution
        (run_manim_node outcomes s).retries ceiling = "fix"
    · rw [orchLoop_fix_case outcomes ceiling f s hsr]
      have hlt : s.retries < ceiling := should_retry_fix_inv hsr
      have hfr : (fix_manim_code_node (run_manim_node outcomes s)).retries = s.retries + 1 := rfl
      have IH := ih (fix_manim_code_node (run_manim_node outcomes s)) (by rw [hfr]; omega)
      constructor
      · intro r hr
        rcases List.mem_cons.mp hr with rfl | hr'
        · exact hle
        · exact IH.1 r hr'
      · exact IH.2
    · rw [orchLoop_end_case outcomes ceiling (f + 1) s hsr]
      constructor
      · intro r hr
        have : r = s.retries := by simpa [orchEnd, run_manim_node] using hr
        omega
      · exact hle

/-- **C3.** From `retries = 0`: if every execution attempt up to the ceiling
fails, the orchestrator performs exactly `ceiling` fix attempts
(`ceiling + 1` executions) and terminates `failed`; if the first successful
attempt is attempt `j`, it terminates `succeeded` immediately after it
(`j` fixes, `j + 1` executions, no further attempts); and in every visited
state the retry counter never exceeds the ceiling. -/
theorem C3_retry_ceiling_termination (outcomes : Nat → ManimExecutionResult) (ceiling : Nat) :
    ((∀ k, k ≤ ceiling → (outcomes k).success = false) →
      (orchestrate outcomes ceiling).terminal = .failed ∧
      (orchestrate outcomes ceiling).execCount = ceiling + 1 ∧
      (orchestrate outcomes ceiling).fixCount = ceiling ∧
      (orchestrate outcomes ceiling).final.retries = ceiling) ∧
    (∀ j, j ≤ ceiling → (outcomes j).success = true →
      (∀ i, i < j → (outcomes i).success = false) →
      (orchestrate outcomes ceiling).terminal = .succeeded ∧
      (orchestrate outcomes ceiling).execCount = j + 1 ∧
      (orchestrate outcomes ceiling).fixCount = j) ∧
    ((∀ r ∈ (orchestrate outcomes ceiling).trace, r ≤ ceiling) ∧
      (orchestrate outcomes ceiling).final.retries ≤ ceiling) := by
  have h0 : (⟨none, none, 0⟩ : GState).retries = 0 := rfl
  refine ⟨?_, ?_, ?_⟩
  · intro hfail
    have h := orchLoop_all_fail outcomes ceiling hfail ceiling ⟨none, none, 0⟩
      (Nat.zero_le _) (by omega)
    rw [h0] at h
    refine ⟨h.1, ?_, ?_, h.2.2.2⟩
    · show (orchLoop outcomes ceiling ceiling ⟨none, none, 0⟩).execCount = ceiling + 1
      rw [h.2.1]
      omega
    · show (orchLoop outcomes ceiling ceiling ⟨none, none, 0⟩).fixCount = ceiling
      rw [h.2.2.1]
      omega
  · intro j hjc hj hbefore
    have h := orchLoop_first_success outcomes ceiling j hj hbefore ceiling ⟨none, none, 0⟩
      (Nat.zero_le _) hjc (by omega)
    rw [h0] at h
    refine ⟨h.1, ?_, ?_⟩
    · show (orchLoop outcomes ceiling ceiling ⟨none, none, 0⟩).execCount = j + 1
      rw [h.2.1]
      omega
    · show (orchLoop outcomes ceiling ceiling ⟨none, none, 0⟩).fixCount = j
      rw [h.2.2.1]
      omega
  · exact orchLoop_bounds outcomes ceiling ceiling ⟨none, none, 0⟩ (Nat.zero_le _)

/-- Witness for C3 at concrete inputs: with ceiling 2 and every attempt
failing, the run makes 3 executions and 2 fixes and fails; with ceiling 3 and
the first success at attempt 1, it succeeds after 2 executions and 1 fix. -/
theorem C3_retry_ceiling_termination_witness :
    (orchestrate (fun _ => ⟨false, none, some "err", none⟩) 2).terminal = .failed ∧
    (orchestrate (fun _ => ⟨false, none, some "err", none⟩) 2).execCount = 3 ∧
    (orchestrate (fun _ => ⟨false, none, some "err", none⟩) 2).fixCount = 2 ∧
    (orchestrate (fun _ => ⟨false, none, some "err", none⟩) 2).final.retries = 2 ∧
    (orchestrate (fun k => if k == 1 then ⟨true, some "/v.mp4", none, none⟩
      else ⟨false, none, some "err", none⟩) 3).terminal = .succeeded ∧
    (orchestrate (fun k => if k == 1 then ⟨true, some "/v.mp4", none, none⟩
      else ⟨false, none, some "err", none⟩) 3).execCount = 2 ∧
    (orchestrate (fun k => if k == 1 then ⟨true, some "/v.mp4", none, none⟩
      else ⟨false, none, some "err", none⟩) 3).fixCount = 1 := by
  have h1 := (C3_retry_ceiling_termination (fun _ => ⟨false, none, some "err", none⟩) 2).1
    (fun k _ => rfl)
  have h2 := (C3_retry_ceiling_termination (fun k => if k == 1 then ⟨true, some "/v.mp4", none, none⟩
      else ⟨false, none, some "err", none⟩) 3).2.1 1 (by omega) rfl
    (fun i hi => by
      have : i = 0 := by omega
      subst this
      rfl)
  exact ⟨h1.1, h1.2.1, h1.2.2.1, h1.2.2.2, h2.1, h2.2.1, h2.2.2⟩

/-- Witness for C10 at concrete inputs: pass-through of code with a real
newline, and escape decoding of escaped-only code. -/
theorem C10_code_normalization_witness :
    normalize_code_input "x\ny" = "x\ny" ∧
    normalize_code_input "a\\nb" = String.mk (escReplL ("a\\nb" : String).toList) :=
  ⟨(C10_code_normalization "x\ny").2.2.1 (by decide) (by decide),
   (C10_code_normalization "a\\nb").2.2.2.1 (by decide) (by decide) rfl⟩

/-- Witness for C9 at concrete inputs: the amended acceptance applied to
`"640x480"`, and the soundness direction applied to `"1920x1080"`. -/
theorem C9_resolution_parsing_amended_witness :
    parse_resolution (String.mk (['6', '4', '0'] ++ 'x' :: ['4', '8', '0'])) =
      some (toString (natOfDigits ['6', '4', '0']) ++ "," ++ toString (natOfDigits ['4', '8', '0'])) ∧
    ∃ d1 d2, resFullmatch ("1920x1080" : String).toList = some (d1, d2) ∧
      2 ≤ d1.length ∧ d1.length ≤ 5 ∧ 2 ≤ d2.length ∧ d2.length ≤ 5 ∧
      (∀ c ∈ d1, c.isDigit = true) ∧ (∀ c ∈ d2, c.isDigit = true) ∧
      0 < natOfDigits d1 ∧ 0 < natOfDigits d2 ∧
      ("1920,1080" : String) = toString (natOfDigits d1) ++ "," ++ toString (natOfDigits d2) :=
  ⟨C9_resolution_parsing_amended.2.2 ['6', '4', '0'] ['4', '8', '0']
      (by decide) (by decide) (by decide) (by decide) (by decide) (by decide)
      (by decide) (by decide),
   C9_resolution_parsing_amended.2.1 "1920x1080" "1920,1080" rfl⟩

end ManimGen
